import Mathlib

/-!
SnorkTracker: MQTT publishing and supply-voltage monitoring.

A shallow embedding of `tracker/Mqtt.h` (class `MyMqtt`) and `tracker/Voltage.h`
(class `MyVoltage`).

* Arduino `String` values are Lean strings; `+` is `++` and `==` is equality.
* The shared objects `MyOptions` and `MyData` are records; a member function is a
  function from the object state to the new object state.
* The broker client (`PubSubClient`), the clock and `MyDelay` are an environment
  `Env σ` over an arbitrary world state `σ`; every call on it is appended to a log.
* `uint32_t` locals are naturals reduced modulo `2 ^ 32`.
* `MyDbg` only writes the debug log and is left out.
-/

namespace SnorkTracker

/-! ## Topic suffixes (`#define topic_...` in Mqtt.h) -/

def topic_deep_sleep : String := "/DeepSleep"
def topic_voltage : String := "/Voltage"
def topic_mAh : String := "/mAh"
def topic_mAhLowPower : String := "/mAhLowPower"
def topic_alive : String := "/Alive"
def topic_power_on : String := "/PowerOn"
def topic_gps_enabled : String := "/GpsEnabled"
def topic_send_on_move_every : String := "/SendOnMoveEverySec"
def topic_send_on_non_move_every : String := "/SendOnNonMoveEverySec"
def topic_send_every : String := "/SendEverySec"
def topic_temperature : String := "/BME280/Temperature"
def topic_humidity : String := "/BME280/Humidity"
def topic_pressure : String := "/BME280/Pressure"
def topic_signal_quality : String := "/Gsm/SignalQuality"
def topic_batt_level : String := "/Gsm/BattLevel"
def topic_batt_volt : String := "/Gsm/BattVolt"
def topic_lon : String := "/Gps/Longitude"
def topic_lat : String := "/Gps/Latitude"
def topic_alt : String := "/Gps/Altitude"
def topic_kmph : String := "/Gps/Kmh"

/-! ## Shared objects -/

/-- Modelled from the spec: the declaration of `MyOptions` is not among the sources.
Only the members that Mqtt.h and Voltage.h touch are kept. Following the data model of the
spec, the three feature flags are booleans, the two send intervals are integers (seconds)
and the threshold is a voltage; a voltage is a rational number, which every finite
floating-point value is. -/
structure MyOptions where
  mqttName : String
  mqttId : String
  mqttServer : String
  mqttPort : Int
  mqttUser : String
  mqttPassword : String
  isDeepSleepEnabled : Bool
  powerOn : Bool
  isGpsEnabled : Bool
  mqttSendOnMoveEverySec : Int
  mqttSendOnNonMoveEverySec : Int
  powerSaveModeVoltage : ℚ
  deriving DecidableEq

/-- Modelled from the spec: the declaration of the last GPS fix (`lastGps`) is not among
the sources. The four `...String()` members are carried by their results. -/
structure MyGps where
  fixStatus : Bool
  time : Nat
  longitudeString : String
  latitudeString : String
  altitudeString : String
  kmphString : String
  deriving DecidableEq

/-- Modelled from the spec: the declaration of `MyData::RtcData` is not among the sources.
The accumulated counters are unbounded naturals (their width is not visible here). -/
structure RtcData where
  lowPowerActiveTimeSec : Nat
  lowPowerPowerOnTimeSec : Nat
  mqttSendCount : Nat
  mqttLastSentTime : Nat
  lastMqttSendSec : Nat
  lastGps : MyGps
  deriving DecidableEq

/-- Modelled from the spec: the declaration of `MyData` is not among the sources. -/
structure MyData where
  voltage : ℚ
  isLowPower : Bool
  isPowerOn : Bool
  isMoving : Bool
  mqttInitSend : Bool
  signalQuality : String
  batteryLevel : String
  batteryVolt : String
  rtcData : RtcData
  deriving DecidableEq

/-- The texts that the formatting expressions of one publish round evaluate to:
`String(myData.voltage, 2)`, `String(myData.getPowerConsumption())`,
`String(myData.getLowPowerPowerConsumption())`, `formatInterval(myData.getActiveTimeSec())`,
`String(myData.temperature)`, `String(myData.humidity)`, `String(myData.pressure)`.
The formatting helpers are not among the sources, so their results are inputs. -/
structure Rendered where
  voltage : String
  mAh : String
  mAhLowPower : String
  alive : String
  temperature : String
  humidity : String
  pressure : String
  deriving DecidableEq

/-! ## Text to integer -/

/-- C `isspace` in the default locale, on a byte. -/
def isSpace (c : Nat) : Bool := c == 32 || (9 ≤ c && c ≤ 13)

/-- C `isdigit`, on a byte. -/
def isDigit (c : Nat) : Bool := 48 ≤ c && c ≤ 57

/-- Value of the longest run of decimal digits at the head of the bytes, continuing the
accumulator `acc`. -/
def digitsValue : Nat → List Nat → Nat
  | acc, [] => acc
  | acc, c :: cs => if isDigit c then digitsValue (acc * 10 + (c - 48)) cs else acc

/-- The C library function `atoi` on the bytes of a NUL-terminated string (the end of the
list, like any byte that is not a digit, ends the number): leading white space is skipped,
one optional sign is read, then the decimal digits. The result is the mathematical value;
C leaves the result undefined when it does not fit an `int`. -/
def atoi (s : List Nat) : Int :=
  match s.dropWhile isSpace with
  | 45 :: rest => -((digitsValue 0 rest : Nat) : Int)
  | 43 :: rest => ((digitsValue 0 rest : Nat) : Int)
  | rest => ((digitsValue 0 rest : Nat) : Int)

/-- Conversion of an `int` to `bool` on assignment to a flag. -/
def intToBool (i : Int) : Bool := i != 0

/-- The bytes of a text, to write payloads down. -/
def bytes (s : String) : List Nat := s.toList.map Char.toNat

/-! ## Inbound commands: `MyMqtt::mqttCallback` -/

/-- `MyMqtt::mqttCallback(topic, payload, len)`. The static pointer `g_myOptions` is an
optional `MyOptions` (`none` is `NULL`); the result is the object it points to after the
call. `topic` and `payload` are `none` for `NULL`; `payload` holds the bytes at the pointer
and the callback reads the first `len` of them (it writes `'\0'` at `payload[len]`). -/
def mqttCallback (g : Option MyOptions) (topic : Option String) (payload : Option (List Nat))
    (len : Nat) : Option MyOptions :=
  match topic, payload with
  | none, _ => g
  | _, none => g
  | some strTopic, some buf =>
    if len ≤ 0 || len > 200 then g
    else
      let text := buf.take len
      match g with
      | none => none
      | some o =>
        let o1 := if strTopic = o.mqttName ++ topic_deep_sleep then
          { o with isDeepSleepEnabled := intToBool (atoi text) } else o
        let o2 := if strTopic = o1.mqttName ++ topic_power_on then
          { o1 with powerOn := intToBool (atoi text) } else o1
        let o3 := if strTopic = o2.mqttName ++ topic_gps_enabled then
          { o2 with isGpsEnabled := intToBool (atoi text) } else o2
        let o4 := if strTopic = o3.mqttName ++ topic_send_on_move_every then
          { o3 with mqttSendOnMoveEverySec := atoi text } else o3
        let o5 := if strTopic = o4.mqttName ++ topic_send_on_non_move_every then
          { o4 with mqttSendOnNonMoveEverySec := atoi text } else o4
        let o6 := if strTopic = o5.mqttName ++ topic_send_every then
          { o5 with mqttSendOnNonMoveEverySec := atoi text } else o5
        some o6

/-- The topic that `mySubscribe` and `myPublish` build for a sub-topic:
`myOptions.mqttName + F("/") + myOptions.mqttId + subTopic`. -/
def fullTopic (o : MyOptions) (subTopic : String) : String :=
  o.mqttName ++ "/" ++ o.mqttId ++ subTopic

/-! ## Environment of `MyMqtt`: broker client, clock, delay -/

/-- The collaborators of `MyMqtt` that are not part of the repository sources, over a world
state `σ` that each call may change: the clock behind `secondsSincePowerOn()`, `MyDelay(ms)`
and the `PubSubClient` primitives `connected()`, `connect(id, user, pass)`,
`subscribe(topic)` and `publish(topic, payload, retained)`. -/
structure Env (σ : Type) where
  secondsSincePowerOn : σ → Nat
  delay : Nat → σ → σ
  connected : σ → Bool × σ
  connect : String → String → String → σ → Bool × σ
  subscribe : String → σ → Bool × σ
  publish : String → String → Bool → σ → Bool × σ

/-- One call on the environment, with its arguments and its result. -/
inductive Event where
  | connected (result : Bool)
  | connect (id user pass : String) (result : Bool)
  | subscribe (topic : String) (result : Bool)
  | publish (topic payload : String) (retained : Bool) (result : Bool)
  | delay (ms : Nat)
  deriving DecidableEq, Repr

/-- World state together with the calls made so far, oldest first. -/
structure Run (σ : Type) where
  w : σ
  log : List Event

/-- `PubSubClient::connected()`, logged. -/
def callConnected {σ : Type} (E : Env σ) (k : Run σ) : Bool × Run σ :=
  let r := E.connected k.w
  (r.1, { w := r.2, log := k.log ++ [Event.connected r.1] })

/-- `PubSubClient::connect(id, user, pass)`, logged. -/
def callConnect {σ : Type} (E : Env σ) (id user pass : String) (k : Run σ) : Bool × Run σ :=
  let r := E.connect id user pass k.w
  (r.1, { w := r.2, log := k.log ++ [Event.connect id user pass r.1] })

/-- `PubSubClient::subscribe(topic)`, logged. -/
def callSubscribe {σ : Type} (E : Env σ) (topic : String) (k : Run σ) : Bool × Run σ :=
  let r := E.subscribe topic k.w
  (r.1, { w := r.2, log := k.log ++ [Event.subscribe topic r.1] })

/-- `PubSubClient::publish(topic, payload, retained)`, logged. -/
def callPublish {σ : Type} (E : Env σ) (topic payload : String) (retained : Bool)
    (k : Run σ) : Bool × Run σ :=
  let r := E.publish topic payload retained k.w
  (r.1, { w := r.2, log := k.log ++ [Event.publish topic payload retained r.1] })

/-- `MyDelay(ms)`, logged. -/
def callDelay {σ : Type} (E : Env σ) (ms : Nat) (k : Run σ) : Run σ :=
  { w := E.delay ms k.w, log := k.log ++ [Event.delay ms] }

/-- Modelled from the spec: the helper `secondsElapsed(lastSec, intervalSec)` is not among
the sources. The spec gives `due = elapsed(lastSendTime) >= selectedInterval`: the time
elapsed since `lastSec`, read off the clock, has reached the interval. -/
def secondsElapsed {σ : Type} (E : Env σ) (w : σ) (lastSec : Nat) (intervalSec : Int) : Bool :=
  decide (intervalSec ≤ (E.secondsSincePowerOn w : Int) - (lastSec : Int))

/-! ## `MyMqtt` -/

/-- The members of `MyMqtt`: the referenced options and data, and `publishInProgress`. -/
structure MyMqtt where
  myOptions : MyOptions
  myData : MyData
  publishInProgress : Bool
  deriving DecidableEq

/-- Constructor `MyMqtt::MyMqtt(client, options, data)`; it also points `g_myOptions` at
the options. -/
def MyMqtt.new (options : MyOptions) (data : MyData) : MyMqtt :=
  { myOptions := options, myData := data, publishInProgress := false }

/-- `MyMqtt::mySubscribe(subTopic)`. -/
def mySubscribe {σ : Type} (E : Env σ) (m : MyMqtt) (subTopic : String) (k : Run σ) :
    Bool × Run σ :=
  let topic := m.myOptions.mqttName ++ "/" ++ m.myOptions.mqttId ++ subTopic
  callSubscribe E topic k

/-- `MyMqtt::myPublish(subTopic, value)`. -/
def myPublish {σ : Type} (E : Env σ) (m : MyMqtt) (subTopic value : String) (k : Run σ) :
    Bool × Run σ :=
  if value.length > 0 then
    let topic := m.myOptions.mqttName ++ "/" ++ m.myOptions.mqttId ++ subTopic
    callPublish E topic value true k
  else (false, k)

/-- `MyMqtt::waitingForMqtt()`. -/
def waitingForMqtt {σ : Type} (E : Env σ) (m : MyMqtt) (w : σ) : Bool :=
  if m.publishInProgress then true
  else if m.myData.isMoving then
    secondsElapsed E w m.myData.rtcData.lastMqttSendSec m.myOptions.mqttSendOnMoveEverySec
  else
    secondsElapsed E w m.myData.rtcData.lastMqttSendSec m.myOptions.mqttSendOnNonMoveEverySec

/-- The five subscriptions made after a successful connect in `handleClient`. -/
def subscribeAll {σ : Type} (E : Env σ) (m : MyMqtt) (k : Run σ) : Run σ :=
  let k1 := (mySubscribe E m topic_deep_sleep k).2
  let k2 := (mySubscribe E m topic_power_on k1).2
  let k3 := (mySubscribe E m topic_gps_enabled k2).2
  let k4 := (mySubscribe E m topic_send_on_move_every k3).2
  (mySubscribe E m topic_send_on_non_move_every k4).2

/-- The loop `for (int i = 0; !connected() && i < 5; i++)` of `handleClient`, with
`n = 5 - i` iterations left. `connected()` is evaluated before `i < 5`, so it is called
once more when no iteration is left. -/
def connectLoop {σ : Type} (E : Env σ) (m : MyMqtt) : Nat → Run σ → Run σ
  | 0, k => (callConnected E k).2
  | n + 1, k =>
    let c := callConnected E k
    if c.1 then c.2
    else
      let r := callConnect E m.myOptions.mqttName m.myOptions.mqttUser
        m.myOptions.mqttPassword c.2
      if r.1 then connectLoop E m n (subscribeAll E m r.2)
      else connectLoop E m n (callDelay E 5000 r.2)

/-- The connect step of `handleClient`: `if (!connected())` followed by the loop. -/
def connectStep {σ : Type} (E : Env σ) (m : MyMqtt) (k : Run σ) : Run σ :=
  let c := callConnected E k
  if !c.1 then connectLoop E m 5 c.2 else c.2

/-- The `myPublish` calls of one round of `handleClient`; `sim808` tells whether
`SIM808_CONNECTED` is defined. -/
def publishRound {σ : Type} (E : Env σ) (sim808 : Bool) (v : Rendered) (m : MyMqtt)
    (k : Run σ) : Run σ :=
  let k1 := (myPublish E m topic_voltage v.voltage k).2
  let k2 := (myPublish E m topic_mAh v.mAh k1).2
  let k3 := (myPublish E m topic_mAhLowPower v.mAhLowPower k2).2
  let k4 := (myPublish E m topic_alive v.alive k3).2
  let k5 := (myPublish E m topic_temperature v.temperature k4).2
  let k6 := (myPublish E m topic_humidity v.humidity k5).2
  let k7 := (myPublish E m topic_pressure v.pressure k6).2
  if sim808 then
    let k8 := (myPublish E m topic_signal_quality m.myData.signalQuality k7).2
    let k9 := (myPublish E m topic_batt_level m.myData.batteryLevel k8).2
    let k10 := (myPublish E m topic_batt_volt m.myData.batteryVolt k9).2
    if m.myData.rtcData.lastGps.fixStatus then
      let k11 := (myPublish E m topic_lon m.myData.rtcData.lastGps.longitudeString k10).2
      let k12 := (myPublish E m topic_lat m.myData.rtcData.lastGps.latitudeString k11).2
      let k13 := (myPublish E m topic_alt m.myData.rtcData.lastGps.altitudeString k12).2
      (myPublish E m topic_kmph m.myData.rtcData.lastGps.kmphString k13).2
    else k10
  else k7

/-- The bookkeeping at the end of a publish round: `mqttSendCount++`,
`mqttLastSentTime = lastGps.time`, `lastMqttSendSec = secondsSincePowerOn()`. -/
def markSent (now : Nat) (d : MyData) : MyData :=
  { d with rtcData := { d.rtcData with
      mqttSendCount := d.rtcData.mqttSendCount + 1
      mqttLastSentTime := d.rtcData.lastGps.time
      lastMqttSendSec := now } }

/-- The value of the local `send` of `handleClient` ("due"), computed in world `w`. -/
def sendDue {σ : Type} (E : Env σ) (m : MyMqtt) (w : σ) : Bool :=
  if m.myData.isMoving then
    secondsElapsed E w m.myData.rtcData.lastMqttSendSec m.myOptions.mqttSendOnMoveEverySec
  else
    secondsElapsed E w m.myData.rtcData.lastMqttSendSec m.myOptions.mqttSendOnNonMoveEverySec

/-- `MyMqtt::handleClient()`, started in world `w`; the result is the object after the
call and the world with the calls made during the call. -/
def handleClient {σ : Type} (E : Env σ) (sim808 : Bool) (v : Rendered) (m : MyMqtt) (w : σ) :
    MyMqtt × Run σ :=
  let send := sendDue E m w
  if (send || m.myData.mqttInitSend) && !m.publishInProgress then
    let m1 := { m with publishInProgress := true }
    let k1 := connectStep E m1 { w := w, log := [] }
    let c := callConnected E k1
    if c.1 then
      let k2 := publishRound E sim808 v m1 c.2
      let m2 := { m1 with myData := markSent (E.secondsSincePowerOn k2.w) m1.myData }
      ({ m2 with publishInProgress := false }, callDelay E 5000 k2)
    else
      ({ m1 with publishInProgress := false }, c.2)
  else (m, { w := w, log := [] })

/-! ## `MyVoltage` -/

/-- The members of `MyVoltage`: the referenced options and data, and `lowPowerStartSec`. -/
structure MyVoltage where
  myOptions : MyOptions
  myData : MyData
  lowPowerStartSec : Nat
  deriving DecidableEq

/-- Constructor `MyVoltage::MyVoltage(options, data)`. -/
def MyVoltage.new (options : MyOptions) (data : MyData) : MyVoltage :=
  { myOptions := options, myData := data, lowPowerStartSec := 0 }

/-- `MyVoltage::begin()`. `millis` is the reading of `millis()` and `volt` the value of
`ANALOG_FACTOR * analogRead(A0)`. -/
def MyVoltage.begin (millis : Nat) (volt : ℚ) (v : MyVoltage) : MyVoltage :=
  let d1 := { v.myData with voltage := volt }
  let d2 := { d1 with isLowPower := decide (d1.voltage < v.myOptions.powerSaveModeVoltage) }
  { v with myData := d2, lowPowerStartSec := (millis % 2 ^ 32) / 1000 }

/-- `MyVoltage::readVoltage()`. `millis` is the reading of `millis()` and `volt` the value
of `ANALOG_FACTOR * analogRead(A0)`; `currSec`, `lowPowerStartSec` and `lowPowerSec` are
`uint32_t`, so the subtraction is taken modulo `2 ^ 32`. -/
def MyVoltage.readVoltage (millis : Nat) (volt : ℚ) (v : MyVoltage) : MyVoltage :=
  let currSec := (millis % 2 ^ 32) / 1000
  let d1 := { v.myData with voltage := volt }
  let isLowPower := decide (d1.voltage < v.myOptions.powerSaveModeVoltage)
  let d2 :=
    if d1.isLowPower && !isLowPower then
      let lowPowerSec := (currSec + 2 ^ 32 - v.lowPowerStartSec % 2 ^ 32) % 2 ^ 32
      let r1 := { d1.rtcData with
        lowPowerActiveTimeSec := d1.rtcData.lowPowerActiveTimeSec + lowPowerSec }
      let r2 := if d1.isPowerOn then
        { r1 with lowPowerPowerOnTimeSec := r1.lowPowerPowerOnTimeSec + lowPowerSec } else r1
      { d1 with rtcData := r2 }
    else d1
  let start := if !d2.isLowPower && isLowPower then currSec else v.lowPowerStartSec
  { v with myData := { d2 with isLowPower := isLowPower }, lowPowerStartSec := start }

/-! ## Concrete objects and environments -/

def sampleOptions : MyOptions :=
  { mqttName := "snork", mqttId := "1", mqttServer := "broker", mqttPort := 1883,
    mqttUser := "user", mqttPassword := "secret", isDeepSleepEnabled := false,
    powerOn := false, isGpsEnabled := false, mqttSendOnMoveEverySec := 5,
    mqttSendOnNonMoveEverySec := 60, powerSaveModeVoltage := 33 / 10 }

def sampleGps : MyGps :=
  { fixStatus := true, time := 1700000000, longitudeString := "8.68", latitudeString := "50.11",
    altitudeString := "112", kmphString := "0" }

def sampleData : MyData :=
  { voltage := 0, isLowPower := false, isPowerOn := true, isMoving := true,
    mqttInitSend := false, signalQuality := "", batteryLevel := "87", batteryVolt := "4012",
    rtcData := { lowPowerActiveTimeSec := 0, lowPowerPowerOnTimeSec := 0, mqttSendCount := 7,
                 mqttLastSentTime := 0, lastMqttSendSec := 0, lastGps := sampleGps } }

def sampleRendered : Rendered :=
  { voltage := "3.71", mAh := "12.5", mAhLowPower := "0.4", alive := "0 00:01:40",
    temperature := "21.5", humidity := "40.0", pressure := "1013.2" }

def sampleMqtt : MyMqtt := MyMqtt.new sampleOptions sampleData

/-- A broker that is never reachable. The world is the clock in milliseconds. -/
def deadEnv : Env Nat :=
  { secondsSincePowerOn := fun w => w / 1000
    delay := fun ms w => w + ms
    connected := fun w => (false, w)
    connect := fun _ _ _ w => (false, w)
    subscribe := fun _ w => (false, w)
    publish := fun _ _ _ w => (false, w) }

/-- World of `simEnv`: the clock in milliseconds, whether the link is up, and how many
connect attempts the broker still refuses. -/
structure SimWorld where
  ms : Nat
  up : Bool
  refuse : Nat
  deriving DecidableEq

/-- A broker that refuses a given number of connect attempts and then accepts; while the
link is up every subscribe succeeds and every second publish fails. -/
def simEnv : Env SimWorld :=
  { secondsSincePowerOn := fun w => w.ms / 1000
    delay := fun ms w => { w with ms := w.ms + ms }
    connected := fun w => (w.up, w)
    connect := fun _ _ _ w =>
      if w.refuse = 0 then (true, { w with up := true })
      else (false, { w with refuse := w.refuse - 1 })
    subscribe := fun _ w => (w.up, w)
    publish := fun _ _ _ w => (w.up && w.ms % 2 == 0, { w with ms := w.ms + 1 }) }

/-- The five sub-topics that `handleClient` subscribes to. -/
def subscribedTopics : List String :=
  [topic_deep_sleep, topic_power_on, topic_gps_enabled, topic_send_on_move_every,
   topic_send_on_non_move_every]

/-- The interval that the moving flag selects. -/
def selectedInterval (m : MyMqtt) : Int :=
  if m.myData.isMoving then m.myOptions.mqttSendOnMoveEverySec
  else m.myOptions.mqttSendOnNonMoveEverySec

/-- Seconds elapsed since the last send, as an integer. -/
def elapsedSec {σ : Type} (E : Env σ) (m : MyMqtt) (w : σ) : Int :=
  (E.secondsSincePowerOn w : Int) - (m.myData.rtcData.lastMqttSendSec : Int)

/-- Other code writing `myData.isPowerOn` between two calls. -/
def MyVoltage.setPowerOn (b : Bool) (v : MyVoltage) : MyVoltage :=
  { v with myData := { v.myData with isPowerOn := b } }

/-- One pass of the main loop as far as `MyVoltage` sees it: the powered-on flag has the
value `c.2.2` when `readVoltage` runs at `millis() = c.1` with sample `c.2.1`. -/
def MyVoltage.poll (v : MyVoltage) (c : Nat × ℚ × Bool) : MyVoltage :=
  (v.setPowerOn c.2.2).readVoltage c.1 c.2.1

/-- The state after the scenario prefix: `begin` at 0 s with 3.5 V. -/
def sampleVoltage : MyVoltage := (MyVoltage.new sampleOptions sampleData).begin 0 (35 / 10)

/-- A `connect` call. -/
def Event.isConnect : Event → Bool
  | Event.connect _ _ _ _ => true
  | _ => false

/-- A `subscribe` call. -/
def Event.isSubscribe : Event → Bool
  | Event.subscribe _ _ => true
  | _ => false

/-- A `publish` call. -/
def Event.isPublish : Event → Bool
  | Event.publish _ _ _ _ => true
  | _ => false

/-- The topic of a `publish` call. -/
def Event.publishTopic : Event → Option String
  | Event.publish topic _ _ _ => some topic
  | _ => none

/-- The topics of the `publish` calls of a log, in order. -/
def publishTopics (log : List Event) : List String := log.filterMap Event.publishTopic

/-- One failed connect attempt in the loop of `handleClient`: the loop condition finds the
client not connected, `connect` fails, `MyDelay(5000)` follows. -/
def failedAttempt (o : MyOptions) : List Event :=
  [Event.connected false, Event.connect o.mqttName o.mqttUser o.mqttPassword false,
   Event.delay 5000]

/-- The sub-topics that a publish round can publish, in the order of `handleClient`. -/
def telemetryTopics : List String :=
  [topic_voltage, topic_mAh, topic_mAhLowPower, topic_alive, topic_temperature,
   topic_humidity, topic_pressure, topic_signal_quality, topic_batt_level, topic_batt_volt,
   topic_lon, topic_lat, topic_alt, topic_kmph]

/-- The object with the interval that the moving flag does not select replaced by `x`. -/
def setOtherInterval (x : Int) (m : MyMqtt) : MyMqtt :=
  if m.myData.isMoving then
    { m with myOptions := { m.myOptions with mqttSendOnNonMoveEverySec := x } }
  else
    { m with myOptions := { m.myOptions with mqttSendOnMoveEverySec := x } }

/-- The object of the scenario for the due decision: moving, intervals 5 and 60, last send
at second 0, no initial send pending. -/
def movingMqtt : MyMqtt := sampleMqtt

/-- A link that is up in the second 100, with no refusals pending. -/
def upWorld : SimWorld := { ms := 100000, up := true, refuse := 0 }

/-- A link that is down in the second 100; the broker refuses two connect attempts. -/
def downWorld : SimWorld := { ms := 100000, up := false, refuse := 2 }

/-- The connect step of a round of `handleClient` started in world `w`, followed by the
check `if (PubSubClient::connected())` that guards the publishing: the result of that check
and the run so far. -/
def connectPhase {σ : Type} (E : Env σ) (m : MyMqtt) (w : σ) : Bool × Run σ :=
  callConnected E (connectStep E { m with publishInProgress := true } { w := w, log := [] })

/-- The run of a round of `handleClient` up to and including its last `myPublish`. -/
def publishPhase {σ : Type} (E : Env σ) (sim808 : Bool) (v : Rendered) (m : MyMqtt) (w : σ) :
    Run σ :=
  publishRound E sim808 v { m with publishInProgress := true } (connectPhase E m w).2

/-- The topic list that `myPublish` passes on for a value: empty for an empty value. -/
def offered (o : MyOptions) (subTopic value : String) : List String :=
  if value.length > 0 then [fullTopic o subTopic] else []

/-- The topics that one publish round passes to `publish`, in order. -/
def roundTopics (sim808 : Bool) (v : Rendered) (m : MyMqtt) : List String :=
  offered m.myOptions topic_voltage v.voltage ++
  (offered m.myOptions topic_mAh v.mAh ++
  (offered m.myOptions topic_mAhLowPower v.mAhLowPower ++
  (offered m.myOptions topic_alive v.alive ++
  (offered m.myOptions topic_temperature v.temperature ++
  (offered m.myOptions topic_humidity v.humidity ++
  (offered m.myOptions topic_pressure v.pressure ++
  (if sim808 then
    offered m.myOptions topic_signal_quality m.myData.signalQuality ++
    (offered m.myOptions topic_batt_level m.myData.batteryLevel ++
    (offered m.myOptions topic_batt_volt m.myData.batteryVolt ++
    (if m.myData.rtcData.lastGps.fixStatus then
      offered m.myOptions topic_lon m.myData.rtcData.lastGps.longitudeString ++
      (offered m.myOptions topic_lat m.myData.rtcData.lastGps.latitudeString ++
      (offered m.myOptions topic_alt m.myData.rtcData.lastGps.altitudeString ++
      (offered m.myOptions topic_kmph m.myData.rtcData.lastGps.kmphString ++ [])))
    else [])))
  else [])))))))

/-- The text starts with a decimal integer in the sense of `atoi`: after optional white
space and one optional sign comes a decimal digit. -/
def startsWithInteger (s : List Nat) : Bool :=
  match s.dropWhile isSpace with
  | [] => false
  | c :: rest =>
    if c = 45 ∨ c = 43 then
      match rest with
      | [] => false
      | d :: _ => isDigit d
    else isDigit c

/-- The six suffixes that `mqttCallback` compares a topic with. -/
def handledTopics : List String :=
  [topic_deep_sleep, topic_power_on, topic_gps_enabled, topic_send_on_move_every,
   topic_send_on_non_move_every, topic_send_every]

/-- A call follows the topic rule of `mySubscribe`/`myPublish`: a `publish` is retained and
its topic is name, slash, id and one of the telemetry sub-topics; the topic of a
`subscribe` is name, slash, id and one of the subscribed sub-topics. -/
def Event.conforms (o : MyOptions) : Event → Prop
  | Event.publish topic _ retained _ =>
    retained = true ∧ ∃ sub ∈ telemetryTopics, topic = o.mqttName ++ "/" ++ o.mqttId ++ sub
  | Event.subscribe topic _ =>
    ∃ sub ∈ subscribedTopics, topic = o.mqttName ++ "/" ++ o.mqttId ++ sub
  | _ => True

/-- The sub-topics published only with the optional hardware: the GSM fields. -/
def gsmTopics : List String := [topic_signal_quality, topic_batt_level, topic_batt_volt]

/-- The sub-topics published only with the optional hardware and a valid fix: the GPS
fields. -/
def gpsTopics : List String := [topic_lon, topic_lat, topic_alt, topic_kmph]

/-- The `myPublish` calls of one round of `handleClient`, as pairs of sub-topic and value,
in the order of the source. -/
def roundOffers (sim808 : Bool) (v : Rendered) (m : MyMqtt) : List (String × String) :=
  [(topic_voltage, v.voltage), (topic_mAh, v.mAh), (topic_mAhLowPower, v.mAhLowPower),
   (topic_alive, v.alive), (topic_temperature, v.temperature), (topic_humidity, v.humidity),
   (topic_pressure, v.pressure)] ++
  (if sim808 then
    [(topic_signal_quality, m.myData.signalQuality), (topic_batt_level, m.myData.batteryLevel),
     (topic_batt_volt, m.myData.batteryVolt)] ++
    (if m.myData.rtcData.lastGps.fixStatus then
      [(topic_lon, m.myData.rtcData.lastGps.longitudeString),
       (topic_lat, m.myData.rtcData.lastGps.latitudeString),
       (topic_alt, m.myData.rtcData.lastGps.altitudeString),
       (topic_kmph, m.myData.rtcData.lastGps.kmphString)]
    else [])
  else [])

/-- The topics that a list of `myPublish` calls passes to `publish`. -/
def offersTopics (o : MyOptions) : List (String × String) → List String
  | [] => []
  | p :: rest => offered o p.1 p.2 ++ offersTopics o rest

/-- The sample object with the last GPS fix invalid. -/
def noFixMqtt : MyMqtt :=
  { sampleMqtt with myData := { sampleMqtt.myData with
      rtcData := { sampleMqtt.myData.rtcData with
        lastGps := { sampleGps with fixStatus := false } } } }

/-- The states of a `MyMqtt` object between two calls of the single-threaded loop: the
constructed object, the object after a `handleClient` call (in any environment and world),
and the object after other code (the callback, the sensors, the configuration pages) has
written the referenced options and data. -/
inductive Reachable : MyMqtt → Prop
  | init (o : MyOptions) (d : MyData) : Reachable (MyMqtt.new o d)
  | call {σ : Type} (E : Env σ) (sim808 : Bool) (v : Rendered) (m : MyMqtt) (w : σ) :
      Reachable m → Reachable (handleClient E sim808 v m w).1
  | touch (m : MyMqtt) (o : MyOptions) (d : MyData) :
      Reachable m → Reachable { m with myOptions := o, myData := d }

/-- A sequence of `handleClient` calls, each with its formatted values and its world. -/
def runCalls {σ : Type} (E : Env σ) (sim808 : Bool) (m : MyMqtt) (calls : List (Rendered × σ)) :
    MyMqtt :=
  calls.foldl (fun s c => (handleClient E sim808 c.1 s c.2).1) m

/-- A broker that is always reachable: every call succeeds. The world is the clock in
milliseconds. -/
def liveEnv : Env Nat :=
  { secondsSincePowerOn := fun w => w / 1000
    delay := fun ms w => w + ms
    connected := fun w => (true, w)
    connect := fun _ _ _ w => (true, w)
    subscribe := fun _ w => (true, w)
    publish := fun _ _ _ w => (true, w) }

/-- The sample object with the initial send pending, not moving (interval 60). -/
def initSendMqtt : MyMqtt :=
  { sampleMqtt with myData := { sampleMqtt.myData with mqttInitSend := true, isMoving := false } }

/-- One pass of the loop of `handleClient` up to its `connect` call: the loop test
`connected()` and then `connect(mqttName, mqttUser, mqttPassword)`; the result of `connect`
and the run after it. -/
def attempt {σ : Type} (E : Env σ) (m : MyMqtt) (k : Run σ) : Bool × Run σ :=
  callConnect E m.myOptions.mqttName m.myOptions.mqttUser m.myOptions.mqttPassword
    (callConnected E k).2

/-- The run after `j` passes of the loop that each ended in `MyDelay(5000)`, from the run
`k` at the entry of the loop. -/
def afterFailures {σ : Type} (E : Env σ) (m : MyMqtt) : Nat → Run σ → Run σ
  | 0, k => k
  | j + 1, k => afterFailures E m j (callDelay E 5000 (attempt E m k).2)

/-- The calls of `j` failed attempts in a row. -/
def repeatFailed (o : MyOptions) : Nat → List Event
  | 0 => []
  | j + 1 => failedAttempt o ++ repeatFailed o j

/-- World of `lossyEnv`: the clock in milliseconds, whether the link is up, and how many
times the link is still going to be lost right after it came up. -/
structure LossyWorld where
  ms : Nat
  up : Bool
  losses : Nat
  deriving DecidableEq

/-- A broker that accepts every connect attempt over a link that is lost `losses` times:
`connected()` then finds the link down and reports false. -/
def lossyEnv : Env LossyWorld :=
  { secondsSincePowerOn := fun w => w.ms / 1000
    delay := fun ms w => { w with ms := w.ms + ms }
    connected := fun w =>
      if w.up && decide (0 < w.losses) then (false, { w with up := false, losses := w.losses - 1 })
      else (w.up, w)
    connect := fun _ _ _ w => (true, { w with up := true })
    subscribe := fun _ w => (w.up, w)
    publish := fun _ _ _ w => (w.up, w) }

/-- The link is down at second 5 and is going to be lost once after it comes up. -/
def lossyWorld : LossyWorld := { ms := 5000, up := false, losses := 1 }

/-- The entry time (seconds) of the low-power run that is open after a sequence of calls
`(millis, sample, powered-on flag)`, given the entry time of the run open before them
(`none` when the mode is high power): a sample below the threshold opens a run at its own
time unless one is open, a sample not below it closes the open run. -/
def openRun (thr : ℚ) : Option Nat → List (Nat × ℚ × Bool) → Option Nat
  | cur, [] => cur
  | none, c :: rest =>
    if c.2.1 < thr then openRun thr (some (c.1 / 1000)) rest else openRun thr none rest
  | some e, c :: rest =>
    if c.2.1 < thr then openRun thr (some e) rest else openRun thr none rest

/-- The durations (seconds) of the low-power runs that a sequence of calls completes: for
each sample that closes a run, its time minus the entry time of the run. -/
def completedRuns (thr : ℚ) : Option Nat → List (Nat × ℚ × Bool) → List Nat
  | _, [] => []
  | none, c :: rest =>
    if c.2.1 < thr then completedRuns thr (some (c.1 / 1000)) rest
    else completedRuns thr none rest
  | some e, c :: rest =>
    if c.2.1 < thr then completedRuns thr (some e) rest
    else (c.1 / 1000 - e) :: completedRuns thr none rest

/-- The time (seconds) of the last call of a sequence, `t` for the empty sequence. -/
def lastTime : Nat → List (Nat × ℚ × Bool) → Nat
  | t, [] => t
  | _, c :: rest => lastTime (c.1 / 1000) rest

/-- The run that `begin` at `millis() = ms0` with sample `volt0` opens, if any. -/
def runAtBegin (thr : ℚ) (ms0 : Nat) (volt0 : ℚ) : Option Nat :=
  if volt0 < thr then some (ms0 / 1000) else none

/-- A sequence of calls for the accounting scenario: samples 3.1, 3.4, 3.0, 3.5, 3.2 at the
seconds 10, 20, 30, 40, 50, powered on. -/
def sampleCalls : List (Nat × ℚ × Bool) :=
  [(10000, 31 / 10, true), (20000, 34 / 10, true), (30000, 30 / 10, true),
   (40000, 35 / 10, true), (50000, 32 / 10, true)]

/-! ## Strings -/

theorem append_left_cancel_str (a b c : String) (h : a ++ b = a ++ c) : b = c := by
  have h2 : (a ++ b).data = (a ++ c).data := by rw [h]
  simp only [String.data_append] at h2
  exact String.ext (List.append_cancel_left h2)

/-- A topic built by `mySubscribe`/`myPublish` for a sub-topic that starts with a slash is
never the name followed by a suffix with a single, leading slash. -/
theorem fullTopic_ne (o : MyOptions) (sub T : String) (s t : List Char)
    (hs : sub.data = '/' :: s) (hT : T.data = '/' :: t) (ht : '/' ∉ t) :
    fullTopic o sub ≠ o.mqttName ++ T := by
  intro h
  unfold fullTopic at h
  rw [String.append_assoc, String.append_assoc] at h
  have h2 := congrArg String.data (append_left_cancel_str _ _ _ h)
  simp only [String.data_append, hs, hT] at h2
  have h3 : '/' ∈ t := by
    have h4 : t = o.mqttId.data ++ '/' :: s := by
      have h5 := h2
      simp only [show ("/" : String).data = ['/'] from rfl, List.singleton_append,
        List.cons.injEq, true_and] at h5
      exact h5.symm
    rw [h4]
    simp
  exact ht h3

theorem subscribed_starts_with_slash (sub : String) (h : sub ∈ subscribedTopics) :
    ∃ s, sub.data = '/' :: s := by
  simp only [subscribedTopics, List.mem_cons, List.mem_singleton, List.not_mem_nil,
    or_false] at h
  rcases h with h | h | h | h | h <;> subst h <;> exact ⟨_, rfl⟩

/-! ## C1 -/

/-- C1 (the code departs from the claim): for every Settings object, every payload and
every one of the five subscribed sub-topics, `mqttCallback` called with the topic that
`mySubscribe`/`myPublish` build for it (name, slash, id, sub-topic) leaves the Settings
object as it was: the callback compares the topic with the name followed by the sub-topic,
without the slash and the id, so no command field is ever set on that topic. -/
theorem mqttCallback_built_topic_unchanged (o : MyOptions) (sub : String)
    (payload : Option (List Nat)) (len : Nat) (hsub : sub ∈ subscribedTopics) :
    mqttCallback (some o) (some (fullTopic o sub)) payload len = some o := by
  obtain ⟨s, hs⟩ := subscribed_starts_with_slash sub hsub
  have n1 := fullTopic_ne o sub topic_deep_sleep s _ hs rfl (by decide)
  have n2 := fullTopic_ne o sub topic_power_on s _ hs rfl (by decide)
  have n3 := fullTopic_ne o sub topic_gps_enabled s _ hs rfl (by decide)
  have n4 := fullTopic_ne o sub topic_send_on_move_every s _ hs rfl (by decide)
  have n5 := fullTopic_ne o sub topic_send_on_non_move_every s _ hs rfl (by decide)
  have n6 := fullTopic_ne o sub topic_send_every s _ hs rfl (by decide)
  cases payload with
  | none => rfl
  | some buf =>
    simp only [mqttCallback]
    split
    · rfl
    · simp [n1, n2, n3, n4, n5, n6]

/-- C1, at a concrete input: with name "snork" and id "1", the payload "1" on the
subscribed topic "snork/1/DeepSleep" leaves the deep-sleep flag false, although
`atoi("1")` is 1. -/
theorem mqttCallback_built_topic_unchanged_witness :
    fullTopic sampleOptions topic_deep_sleep = "snork/1/DeepSleep" ∧
    atoi (bytes "1") = 1 ∧
    sampleOptions.isDeepSleepEnabled = false ∧
    mqttCallback (some sampleOptions) (some "snork/1/DeepSleep") (some (bytes "1")) 1
      = some sampleOptions :=
  ⟨by decide, by decide, by decide,
   mqttCallback_built_topic_unchanged sampleOptions topic_deep_sleep (some (bytes "1")) 1
     (by decide)⟩

/-! ## C2 -/

/-- C2 (the claim fails on the code): with no publish in progress, the moving interval 5 and
the last send at second 0, `waitingForMqtt` returns true at second 5, when the elapsed time
is not below the interval, and false at second 4, when it is. -/
theorem waitingForMqtt_not_below_interval :
    sampleMqtt.publishInProgress = false ∧ selectedInterval sampleMqtt = 5 ∧
    (elapsedSec deadEnv sampleMqtt 5000 = 5 ∧ waitingForMqtt deadEnv sampleMqtt 5000 = true) ∧
    (elapsedSec deadEnv sampleMqtt 4000 = 4 ∧ waitingForMqtt deadEnv sampleMqtt 4000 = false) ∧
    ¬ (∀ (m : MyMqtt) (w : Nat), waitingForMqtt deadEnv m w = true ↔
        (m.publishInProgress = true ∨ elapsedSec deadEnv m w < selectedInterval m)) := by
  refine ⟨by decide, by decide, by decide, by decide, ?_⟩
  intro h
  have h1 : waitingForMqtt deadEnv sampleMqtt 5000 = true := by decide
  have h2 := (h sampleMqtt 5000).mp h1
  revert h2
  decide

/-- C2, amended: `waitingForMqtt` returns true if and only if a publish is in progress or
the time elapsed since `lastMqttSendSec` has reached the interval selected by `isMoving`;
it is `publishInProgress || send`, with `send` the due value of `handleClient`. -/
theorem waitingForMqtt_iff_in_progress_or_due {σ : Type} (E : Env σ) (m : MyMqtt) (w : σ) :
    (waitingForMqtt E m w = true ↔
      (m.publishInProgress = true ∨ selectedInterval m ≤ elapsedSec E m w)) ∧
    waitingForMqtt E m w = (m.publishInProgress || sendDue E m w) ∧
    (sendDue E m w = true ↔ selectedInterval m ≤ elapsedSec E m w) := by
  have hdue : sendDue E m w = true ↔ selectedInterval m ≤ elapsedSec E m w := by
    unfold sendDue selectedInterval elapsedSec secondsElapsed
    split <;> simp
  have hw : waitingForMqtt E m w = (m.publishInProgress || sendDue E m w) := by
    unfold waitingForMqtt sendDue
    cases m.publishInProgress <;> simp
  refine ⟨?_, hw, hdue⟩
  rw [hw, Bool.or_eq_true, hdue]

/-! ## C3, C4 -/

theorem uint32_sub_of_le (a b : Nat) (hb : b ≤ a) (ha : a < 2 ^ 32) :
    (a + 2 ^ 32 - b % 2 ^ 32) % 2 ^ 32 = a - b := by
  have hb2 : b % 2 ^ 32 = b := Nat.mod_eq_of_lt (lt_of_le_of_lt hb ha)
  rw [hb2]
  have h3 : a + 2 ^ 32 - b = (a - b) + 2 ^ 32 := by omega
  rw [h3, Nat.add_mod_right]
  exact Nat.mod_eq_of_lt (by omega)

theorem readVoltage_enter (v : MyVoltage) (ms : Nat) (volt : ℚ)
    (h0 : v.myData.isLowPower = false) (hlow : volt < v.myOptions.powerSaveModeVoltage) :
    (v.readVoltage ms volt).myData.isLowPower = true ∧
    (v.readVoltage ms volt).lowPowerStartSec = (ms % 2 ^ 32) / 1000 ∧
    (v.readVoltage ms volt).myOptions = v.myOptions := by
  simp [MyVoltage.readVoltage, h0, hlow]

theorem poll_stay_low (v : MyVoltage) (c : Nat × ℚ × Bool)
    (h0 : v.myData.isLowPower = true) (hlow : c.2.1 < v.myOptions.powerSaveModeVoltage) :
    (v.poll c).myData.isLowPower = true ∧
    (v.poll c).lowPowerStartSec = v.lowPowerStartSec ∧
    (v.poll c).myOptions = v.myOptions := by
  simp [MyVoltage.poll, MyVoltage.setPowerOn, MyVoltage.readVoltage, h0, hlow]

theorem foldl_poll_stay_low (mids : List (Nat × ℚ × Bool)) (v : MyVoltage)
    (h0 : v.myData.isLowPower = true)
    (hmid : ∀ c ∈ mids, c.2.1 < v.myOptions.powerSaveModeVoltage) :
    (mids.foldl MyVoltage.poll v).myData.isLowPower = true ∧
    (mids.foldl MyVoltage.poll v).lowPowerStartSec = v.lowPowerStartSec ∧
    (mids.foldl MyVoltage.poll v).myOptions = v.myOptions := by
  induction mids generalizing v with
  | nil => simp [h0]
  | cons c rest ih =>
    have hc := poll_stay_low v c h0 (hmid c (List.mem_cons_self _ _))
    have hrest : ∀ c2 ∈ rest, c2.2.1 < (v.poll c).myOptions.powerSaveModeVoltage := by
      intro c2 hc2
      rw [hc.2.2]
      exact hmid c2 (List.mem_cons_of_mem _ hc2)
    have h := ih (v.poll c) hc.1 hrest
    simp only [List.foldl_cons]
    exact ⟨h.1, by rw [h.2.1, hc.2.1], by rw [h.2.2, hc.2.2]⟩

theorem readVoltage_leave (v : MyVoltage) (ms : Nat) (volt : ℚ)
    (h0 : v.myData.isLowPower = true) (hhigh : ¬ volt < v.myOptions.powerSaveModeVoltage)
    (hms : ms < 2 ^ 32) (hle : v.lowPowerStartSec ≤ ms / 1000) :
    (v.readVoltage ms volt).myData.isLowPower = false ∧
    (v.readVoltage ms volt).myData.rtcData.lowPowerActiveTimeSec =
      v.myData.rtcData.lowPowerActiveTimeSec + (ms / 1000 - v.lowPowerStartSec) ∧
    (v.readVoltage ms volt).myData.rtcData.lowPowerPowerOnTimeSec =
      v.myData.rtcData.lowPowerPowerOnTimeSec +
        (if v.myData.isPowerOn then ms / 1000 - v.lowPowerStartSec else 0) := by
  have hm : ms % 2 ^ 32 = ms := Nat.mod_eq_of_lt hms
  have hsec : ms / 1000 < 2 ^ 32 := lt_of_le_of_lt (Nat.div_le_self _ _) hms
  have hsub := uint32_sub_of_le (ms / 1000) v.lowPowerStartSec hle hsec
  have hcalc : ((ms % 2 ^ 32) / 1000 + 2 ^ 32 - v.lowPowerStartSec % 2 ^ 32) % 2 ^ 32
      = ms / 1000 - v.lowPowerStartSec := by rw [hm]; exact hsub
  cases hp : v.myData.isPowerOn <;>
    simp only [MyVoltage.readVoltage, h0, hhigh, hp, hcalc, decide_False, Bool.not_false,
      Bool.and_self, Bool.and_true, if_true, if_false, Bool.false_eq_true, Bool.not_true,
      Bool.and_false, and_self, add_zero]

/-- C3: a low-power run that a `readVoltage` call at `millis() = msIn` entered (from high
power, with a sample below the threshold), that any number of further calls with samples
below the threshold continued, and that a call at `msOut` (not earlier, in seconds) with a
sample not below the threshold leaves: the leaving call adds exactly
`d = msOut / 1000 - msIn / 1000` to `lowPowerActiveTimeSec`, and adds `d` to
`lowPowerPowerOnTimeSec` when the powered-on flag is set at that call, 0 when it is not. -/
theorem readVoltage_dwell_on_leaving (v0 : MyVoltage) (msIn msOut : Nat) (voltIn voltOut : ℚ)
    (onIn onOut : Bool) (mids : List (Nat × ℚ × Bool))
    (h0 : v0.myData.isLowPower = false)
    (hIn : voltIn < v0.myOptions.powerSaveModeVoltage)
    (hmid : ∀ c ∈ mids, c.2.1 < v0.myOptions.powerSaveModeVoltage)
    (hOut : ¬ voltOut < v0.myOptions.powerSaveModeVoltage)
    (hInB : msIn < 2 ^ 32) (hOutB : msOut < 2 ^ 32) (hle : msIn / 1000 ≤ msOut / 1000) :
    (v0.poll (msIn, voltIn, onIn)).myData.isLowPower = true ∧
    (mids.foldl MyVoltage.poll (v0.poll (msIn, voltIn, onIn))).myData.isLowPower = true ∧
    ((mids.foldl MyVoltage.poll (v0.poll (msIn, voltIn, onIn))).poll
        (msOut, voltOut, onOut)).myData.isLowPower = false ∧
    ((mids.foldl MyVoltage.poll (v0.poll (msIn, voltIn, onIn))).poll
        (msOut, voltOut, onOut)).myData.rtcData.lowPowerActiveTimeSec =
      (mids.foldl MyVoltage.poll (v0.poll (msIn, voltIn, onIn))).myData.rtcData.lowPowerActiveTimeSec
        + (msOut / 1000 - msIn / 1000) ∧
    ((mids.foldl MyVoltage.poll (v0.poll (msIn, voltIn, onIn))).poll
        (msOut, voltOut, onOut)).myData.rtcData.lowPowerPowerOnTimeSec =
      (mids.foldl MyVoltage.poll (v0.poll (msIn, voltIn, onIn))).myData.rtcData.lowPowerPowerOnTimeSec
        + (if onOut then msOut / 1000 - msIn / 1000 else 0) := by
  have he := readVoltage_enter (v0.setPowerOn onIn) msIn voltIn h0 hIn
  have he1 : (v0.poll (msIn, voltIn, onIn)).myData.isLowPower = true := he.1
  have he2 : (v0.poll (msIn, voltIn, onIn)).lowPowerStartSec = msIn / 1000 := by
    have := he.2.1
    rw [Nat.mod_eq_of_lt hInB] at this
    exact this
  have he3 : (v0.poll (msIn, voltIn, onIn)).myOptions = v0.myOptions := he.2.2
  have hs := foldl_poll_stay_low mids (v0.poll (msIn, voltIn, onIn)) he1
    (by rw [he3]; exact hmid)
  generalize mids.foldl MyVoltage.poll (v0.poll (msIn, voltIn, onIn)) = v2 at hs
  have hopt : (v2.setPowerOn onOut).myOptions = v0.myOptions := by
    show v2.myOptions = v0.myOptions
    rw [hs.2.2, he3]
  have hstart : (v2.setPowerOn onOut).lowPowerStartSec = msIn / 1000 := by
    show v2.lowPowerStartSec = msIn / 1000
    rw [hs.2.1, he2]
  have hl := readVoltage_leave (v2.setPowerOn onOut) msOut voltOut hs.1
    (by rw [hopt]; exact hOut) hOutB (by rw [hstart]; exact hle)
  rw [hstart] at hl
  exact ⟨he1, hs.1, hl.1, hl.2.1, hl.2.2⟩

/-- C3, the scenario: threshold 3.3, samples 3.5, 3.2, 3.1, 3.4 at seconds 0, 10, 20, 30
give the modes high, low, low, high, and the fourth sample adds 20 to the low-power
counter (and to the powered-on counter, the flag being set). -/
theorem readVoltage_dwell_on_leaving_witness :
    sampleVoltage.myOptions.powerSaveModeVoltage = 33 / 10 ∧
    sampleVoltage.myData.isLowPower = false ∧
    (sampleVoltage.poll (10000, 32 / 10, true)).myData.isLowPower = true ∧
    ([(20000, 31 / 10, true)].foldl MyVoltage.poll
        (sampleVoltage.poll (10000, 32 / 10, true))).myData.isLowPower = true ∧
    (([(20000, 31 / 10, true)].foldl MyVoltage.poll
        (sampleVoltage.poll (10000, 32 / 10, true))).poll
          (30000, 34 / 10, true)).myData.isLowPower = false ∧
    (([(20000, 31 / 10, true)].foldl MyVoltage.poll
        (sampleVoltage.poll (10000, 32 / 10, true))).poll
          (30000, 34 / 10, true)).myData.rtcData.lowPowerActiveTimeSec =
      ([(20000, 31 / 10, true)].foldl MyVoltage.poll
        (sampleVoltage.poll (10000, 32 / 10, true))).myData.rtcData.lowPowerActiveTimeSec + 20 ∧
    (([(20000, 31 / 10, true)].foldl MyVoltage.poll
        (sampleVoltage.poll (10000, 32 / 10, true))).poll
          (30000, 34 / 10, true)).myData.rtcData.lowPowerPowerOnTimeSec =
      ([(20000, 31 / 10, true)].foldl MyVoltage.poll
        (sampleVoltage.poll (10000, 32 / 10, true))).myData.rtcData.lowPowerPowerOnTimeSec + 20 := by
  have hthr : sampleVoltage.myOptions.powerSaveModeVoltage = 33 / 10 := rfl
  have h0 : sampleVoltage.myData.isLowPower = false := by
    simp [sampleVoltage, MyVoltage.begin, MyVoltage.new, sampleOptions]
    norm_num
  have h := readVoltage_dwell_on_leaving sampleVoltage 10000 30000 (32 / 10) (34 / 10) true true
    [(20000, 31 / 10, true)] h0 (by rw [hthr]; norm_num)
    (by intro c hc; simp at hc; subst hc; rw [hthr]; norm_num)
    (by rw [hthr]; norm_num) (by norm_num) (by norm_num) (by norm_num)
  exact ⟨hthr, h0, h.1, h.2.1, h.2.2.1, h.2.2.2.1, h.2.2.2.2⟩

/-- C4: a `readVoltage` call whose sample leaves the mode unchanged (below the threshold in
low power, not below it in high power) changes neither `lowPowerActiveTimeSec` nor
`lowPowerPowerOnTimeSec` nor the stored `lowPowerStartSec`, and the mode stays. -/
theorem readVoltage_same_mode_frame (v : MyVoltage) (ms : Nat) (volt : ℚ)
    (hsame : volt < v.myOptions.powerSaveModeVoltage ↔ v.myData.isLowPower = true) :
    (v.readVoltage ms volt).myData.isLowPower = v.myData.isLowPower ∧
    (v.readVoltage ms volt).myData.rtcData.lowPowerActiveTimeSec =
      v.myData.rtcData.lowPowerActiveTimeSec ∧
    (v.readVoltage ms volt).myData.rtcData.lowPowerPowerOnTimeSec =
      v.myData.rtcData.lowPowerPowerOnTimeSec ∧
    (v.readVoltage ms volt).lowPowerStartSec = v.lowPowerStartSec := by
  cases hm : v.myData.isLowPower with
  | false =>
    have hv : ¬ volt < v.myOptions.powerSaveModeVoltage := by
      intro h; have := hsame.mp h; rw [hm] at this; exact Bool.false_ne_true this
    simp [MyVoltage.readVoltage, hm, hv]
  | true =>
    have hv : volt < v.myOptions.powerSaveModeVoltage := hsame.mpr hm
    simp [MyVoltage.readVoltage, hm, hv]

/-- C4, at concrete inputs: in high power (threshold 3.3) a sample of 3.4 at second 10
changes nothing, and in low power, entered at second 10, a sample of 3.1 at second 20
changes nothing. -/
theorem readVoltage_same_mode_frame_witness :
    ((sampleVoltage.readVoltage 10000 (34 / 10)).myData.isLowPower = false ∧
     (sampleVoltage.readVoltage 10000 (34 / 10)).myData.rtcData.lowPowerActiveTimeSec = 0 ∧
     (sampleVoltage.readVoltage 10000 (34 / 10)).myData.rtcData.lowPowerPowerOnTimeSec = 0 ∧
     (sampleVoltage.readVoltage 10000 (34 / 10)).lowPowerStartSec = 0) ∧
    (((sampleVoltage.readVoltage 10000 (32 / 10)).readVoltage 20000
        (31 / 10)).myData.isLowPower = true ∧
     ((sampleVoltage.readVoltage 10000 (32 / 10)).readVoltage 20000
        (31 / 10)).lowPowerStartSec = 10) := by
  have hthr : sampleVoltage.myOptions.powerSaveModeVoltage = 33 / 10 := rfl
  have h0 : sampleVoltage.myData.isLowPower = false := by
    simp [sampleVoltage, MyVoltage.begin, MyVoltage.new, sampleOptions]
    norm_num
  have h1 := readVoltage_same_mode_frame sampleVoltage 10000 (34 / 10)
    (by rw [hthr, h0]; norm_num)
  have he := readVoltage_enter sampleVoltage 10000 (32 / 10) h0 (by rw [hthr]; norm_num)
  have h2 := readVoltage_same_mode_frame (sampleVoltage.readVoltage 10000 (32 / 10)) 20000
    (31 / 10) (by rw [he.2.2, he.1, hthr]; norm_num)
  refine ⟨⟨?_, ?_, ?_, ?_⟩, ?_, ?_⟩
  · rw [h1.1, h0]
  · rw [h1.2.1]; rfl
  · rw [h1.2.2.1]; rfl
  · rw [h1.2.2.2]; rfl
  · rw [h2.1, he.1]
  · rw [h2.2.2.2, he.2.1]; norm_num

/-! ## C5, C6, C8 -/

theorem sendDue_iff {σ : Type} (E : Env σ) (m : MyMqtt) (w : σ) :
    sendDue E m w = true ↔ selectedInterval m ≤ elapsedSec E m w := by
  unfold sendDue selectedInterval elapsedSec secondsElapsed
  split <;> simp

/-- C5: when a send is due or the initial send is pending, no publish is in progress, the
client never reports connected and every connect attempt fails, one `handleClient` call
makes exactly these calls: the check of `connected()`, five times the failed attempt
(loop check, `connect`, `MyDelay(5000)`), the last loop check and the check before
publishing; so exactly 5 connect attempts, and `publishInProgress` is false on return. -/
theorem handleClient_bounded_retry {σ : Type} (E : Env σ) (sim808 : Bool) (v : Rendered)
    (m : MyMqtt) (w : σ)
    (hdue : selectedInterval m ≤ elapsedSec E m w ∨ m.myData.mqttInitSend = true)
    (hpip : m.publishInProgress = false)
    (hdown : ∀ x, (E.connected x).1 = false)
    (hfail : ∀ a b c x, (E.connect a b c x).1 = false) :
    (handleClient E sim808 v m w).2.log =
      [Event.connected false] ++ failedAttempt m.myOptions ++ failedAttempt m.myOptions ++
        failedAttempt m.myOptions ++ failedAttempt m.myOptions ++ failedAttempt m.myOptions ++
        [Event.connected false, Event.connected false] ∧
    ((handleClient E sim808 v m w).2.log.filter Event.isConnect).length = 5 ∧
    ((handleClient E sim808 v m w).2.log.filter Event.isPublish).length = 0 ∧
    (handleClient E sim808 v m w).1.publishInProgress = false := by
  have hstart : ((sendDue E m w || m.myData.mqttInitSend) && !m.publishInProgress) = true := by
    rw [hpip]
    rcases hdue with h | h
    · rw [(sendDue_iff E m w).mpr h]; rfl
    · rw [h]; simp
  have hlog : (handleClient E sim808 v m w).2.log =
      [Event.connected false] ++ failedAttempt m.myOptions ++ failedAttempt m.myOptions ++
        failedAttempt m.myOptions ++ failedAttempt m.myOptions ++ failedAttempt m.myOptions ++
        [Event.connected false, Event.connected false] := by
    simp [handleClient, hstart, connectStep, connectLoop, callConnected, callConnect,
      callDelay, hdown, hfail, failedAttempt]
  refine ⟨hlog, ?_, ?_, ?_⟩
  · rw [hlog]; simp [failedAttempt, Event.isConnect]
  · rw [hlog]; simp [failedAttempt, Event.isPublish]
  · simp [handleClient, hstart, connectStep, connectLoop, callConnected, callConnect,
      callDelay, hdown, hfail]

/-- C5, at a concrete input: the unreachable broker at second 5, moving interval 5. -/
theorem handleClient_bounded_retry_witness :
    ((handleClient deadEnv true sampleRendered sampleMqtt 5000).2.log.filter
      Event.isConnect).length = 5 ∧
    (handleClient deadEnv true sampleRendered sampleMqtt 5000).2.w = 30000 ∧
    (handleClient deadEnv true sampleRendered sampleMqtt 5000).1.publishInProgress = false :=
  ⟨(handleClient_bounded_retry deadEnv true sampleRendered sampleMqtt 5000
      (Or.inl (by decide)) rfl (fun _ => rfl) (fun _ _ _ _ => rfl)).2.1,
   by decide,
   (handleClient_bounded_retry deadEnv true sampleRendered sampleMqtt 5000
      (Or.inl (by decide)) rfl (fun _ => rfl) (fun _ _ _ _ => rfl)).2.2.2⟩

/-- C6: when the elapsed time is below the selected interval and `mqttInitSend` is false,
`handleClient` returns the object as it was (so `mqttSendCount`, `lastMqttSendSec` and
every Settings field are unchanged), makes no call on the environment at all (no connect,
subscribe or publish) and leaves the world as it was. -/
theorem handleClient_not_due_frame {σ : Type} (E : Env σ) (sim808 : Bool) (v : Rendered)
    (m : MyMqtt) (w : σ)
    (hnot : elapsedSec E m w < selectedInterval m) (hinit : m.myData.mqttInitSend = false) :
    (handleClient E sim808 v m w).1 = m ∧
    (handleClient E sim808 v m w).1.myData.rtcData.mqttSendCount =
      m.myData.rtcData.mqttSendCount ∧
    (handleClient E sim808 v m w).1.myData.rtcData.lastMqttSendSec =
      m.myData.rtcData.lastMqttSendSec ∧
    (handleClient E sim808 v m w).1.myOptions = m.myOptions ∧
    (handleClient E sim808 v m w).2.log = [] ∧
    (handleClient E sim808 v m w).2.w = w := by
  have hd : sendDue E m w = false := by
    cases h : sendDue E m w with
    | false => rfl
    | true => exact absurd ((sendDue_iff E m w).mp h) (not_le.mpr hnot)
  have h : handleClient E sim808 v m w = (m, { w := w, log := [] }) := by
    simp [handleClient, hd, hinit]
  rw [h]
  exact ⟨rfl, rfl, rfl, rfl, rfl, rfl⟩

/-- C6, at a concrete input: second 4, moving interval 5, link up. -/
theorem handleClient_not_due_frame_witness :
    (handleClient simEnv true sampleRendered sampleMqtt { ms := 4000, up := true, refuse := 0 }).1
      = sampleMqtt ∧
    (handleClient simEnv true sampleRendered sampleMqtt
      { ms := 4000, up := true, refuse := 0 }).2.log = [] :=
  ⟨(handleClient_not_due_frame simEnv true sampleRendered sampleMqtt
      { ms := 4000, up := true, refuse := 0 } (by decide) rfl).1,
   (handleClient_not_due_frame simEnv true sampleRendered sampleMqtt
      { ms := 4000, up := true, refuse := 0 } (by decide) rfl).2.2.2.2.1⟩

theorem handleClient_idle {σ : Type} (E : Env σ) (sim808 : Bool) (v : Rendered)
    (m : MyMqtt) (w : σ)
    (h : ((sendDue E m w || m.myData.mqttInitSend) && !m.publishInProgress) = false) :
    handleClient E sim808 v m w = (m, { w := w, log := [] }) := by
  unfold handleClient
  simp only [h]
  rfl

theorem handleClient_round {σ : Type} (E : Env σ) (sim808 : Bool) (v : Rendered)
    (m : MyMqtt) (w : σ)
    (h : ((sendDue E m w || m.myData.mqttInitSend) && !m.publishInProgress) = true) :
    handleClient E sim808 v m w =
      if (connectPhase E m w).1 then
        ({ myOptions := m.myOptions,
           myData := markSent (E.secondsSincePowerOn (publishPhase E sim808 v m w).w) m.myData,
           publishInProgress := false },
         callDelay E 5000 (publishPhase E sim808 v m w))
      else
        ({ myOptions := m.myOptions, myData := m.myData, publishInProgress := false },
         (connectPhase E m w).2) := by
  unfold handleClient
  simp only [h]
  rfl

theorem handleClient_log_ne_nil_iff {σ : Type} (E : Env σ) (sim808 : Bool) (v : Rendered)
    (m : MyMqtt) (w : σ) :
    (handleClient E sim808 v m w).2.log ≠ [] ↔
      ((sendDue E m w || m.myData.mqttInitSend) && !m.publishInProgress) = true := by
  cases hc : ((sendDue E m w || m.myData.mqttInitSend) && !m.publishInProgress) with
  | false => rw [handleClient_idle E sim808 v m w hc]; simp
  | true =>
    rw [handleClient_round E sim808 v m w hc]
    simp only [iff_true]
    split
    · simp [callDelay]
    · simp [connectPhase, callConnected]

/-- C8: with `publishInProgress` false and `mqttInitSend` false, `handleClient` starts a
round (makes any call on the environment, the first being the check of `connected()`) if
and only if the seconds elapsed since `lastMqttSendSec` have reached the interval selected
by `isMoving`; replacing the other interval by any value does not change the decision. -/
theorem handleClient_round_iff_due {σ : Type} (E : Env σ) (sim808 : Bool) (v : Rendered)
    (m : MyMqtt) (w : σ)
    (hpip : m.publishInProgress = false) (hinit : m.myData.mqttInitSend = false) :
    ((handleClient E sim808 v m w).2.log ≠ [] ↔
      (if m.myData.isMoving then m.myOptions.mqttSendOnMoveEverySec
        else m.myOptions.mqttSendOnNonMoveEverySec)
        ≤ (E.secondsSincePowerOn w : Int) - (m.myData.rtcData.lastMqttSendSec : Int)) ∧
    (∀ x : Int, (handleClient E sim808 v (setOtherInterval x m) w).2.log ≠ [] ↔
      (handleClient E sim808 v m w).2.log ≠ []) := by
  have key : ∀ m2 : MyMqtt, m2.publishInProgress = false → m2.myData.mqttInitSend = false →
      ((handleClient E sim808 v m2 w).2.log ≠ [] ↔ selectedInterval m2 ≤ elapsedSec E m2 w) := by
    intro m2 h1 h2
    rw [handleClient_log_ne_nil_iff, h1, h2, ← sendDue_iff]
    simp
  refine ⟨key m hpip hinit, ?_⟩
  intro x
  have hp2 : (setOtherInterval x m).publishInProgress = false := by
    unfold setOtherInterval; split <;> exact hpip
  have hi2 : (setOtherInterval x m).myData.mqttInitSend = false := by
    unfold setOtherInterval; split <;> exact hinit
  rw [key m hpip hinit, key _ hp2 hi2]
  have hs : selectedInterval (setOtherInterval x m) = selectedInterval m := by
    unfold setOtherInterval selectedInterval
    cases hmv : m.myData.isMoving <;> simp [hmv]
  have he : elapsedSec E (setOtherInterval x m) w = elapsedSec E m w := by
    unfold setOtherInterval elapsedSec
    split <;> rfl
  rw [hs, he]

/-- C8, the scenario: moving interval 5, non-moving interval 60, moving, last send at
second 0: no round at second 4, a round at second 5. -/
theorem handleClient_round_iff_due_witness :
    movingMqtt.myOptions.mqttSendOnMoveEverySec = 5 ∧
    movingMqtt.myOptions.mqttSendOnNonMoveEverySec = 60 ∧
    movingMqtt.myData.isMoving = true ∧ movingMqtt.myData.rtcData.lastMqttSendSec = 0 ∧
    (handleClient deadEnv true sampleRendered movingMqtt 4000).2.log = [] ∧
    (handleClient deadEnv true sampleRendered movingMqtt 5000).2.log ≠ [] :=
  ⟨by decide, by decide, by decide, by decide, by decide,
   ((handleClient_round_iff_due deadEnv true sampleRendered movingMqtt 5000 rfl rfl).1).mpr
     (by decide)⟩

/-! ## C7 -/

theorem publishTopics_append (a b : List Event) :
    publishTopics (a ++ b) = publishTopics a ++ publishTopics b := by
  simp [publishTopics, List.filterMap_append]

theorem callConnected_topics {σ : Type} (E : Env σ) (k : Run σ) :
    publishTopics (callConnected E k).2.log = publishTopics k.log := by
  simp [callConnected, publishTopics_append, publishTopics, Event.publishTopic]

theorem callConnect_topics {σ : Type} (E : Env σ) (a b c : String) (k : Run σ) :
    publishTopics (callConnect E a b c k).2.log = publishTopics k.log := by
  simp [callConnect, publishTopics_append, publishTopics, Event.publishTopic]

theorem callDelay_topics {σ : Type} (E : Env σ) (ms : Nat) (k : Run σ) :
    publishTopics (callDelay E ms k).log = publishTopics k.log := by
  simp [callDelay, publishTopics_append, publishTopics, Event.publishTopic]

theorem mySubscribe_topics {σ : Type} (E : Env σ) (m : MyMqtt) (sub : String) (k : Run σ) :
    publishTopics (mySubscribe E m sub k).2.log = publishTopics k.log := by
  simp [mySubscribe, callSubscribe, publishTopics_append, publishTopics, Event.publishTopic]

theorem subscribeAll_topics {σ : Type} (E : Env σ) (m : MyMqtt) (k : Run σ) :
    publishTopics (subscribeAll E m k).log = publishTopics k.log := by
  simp [subscribeAll, mySubscribe_topics]

theorem connectLoop_topics {σ : Type} (E : Env σ) (m : MyMqtt) (n : Nat) (k : Run σ) :
    publishTopics (connectLoop E m n k).log = publishTopics k.log := by
  induction n generalizing k with
  | zero => simp [connectLoop, callConnected_topics]
  | succ n ih =>
    simp only [connectLoop]
    split
    · exact callConnected_topics E k
    · split
      · rw [ih, subscribeAll_topics, callConnect_topics, callConnected_topics]
      · rw [ih, callDelay_topics, callConnect_topics, callConnected_topics]

theorem connectStep_topics {σ : Type} (E : Env σ) (m : MyMqtt) (k : Run σ) :
    publishTopics (connectStep E m k).log = publishTopics k.log := by
  simp only [connectStep]
  split
  · rw [connectLoop_topics, callConnected_topics]
  · exact callConnected_topics E k

theorem myPublish_topics {σ : Type} (E : Env σ) (m : MyMqtt) (sub value : String)
    (k : Run σ) :
    publishTopics (myPublish E m sub value k).2.log =
      publishTopics k.log ++ offered m.myOptions sub value := by
  unfold myPublish offered
  split
  · simp [callPublish, publishTopics_append, publishTopics, Event.publishTopic, fullTopic]
  · simp

theorem publishRound_topics {σ : Type} (E : Env σ) (sim808 : Bool) (v : Rendered)
    (m : MyMqtt) (k : Run σ) :
    publishTopics (publishRound E sim808 v m k).log =
      publishTopics k.log ++ roundTopics sim808 v m := by
  unfold publishRound roundTopics
  cases sim808 with
  | false => simp [myPublish_topics]
  | true =>
    cases m.myData.rtcData.lastGps.fixStatus <;> simp [myPublish_topics]

theorem fullTopic_injective (o : MyOptions) : Function.Injective (fullTopic o) := by
  intro a b h
  unfold fullTopic at h
  rw [String.append_assoc, String.append_assoc, String.append_assoc, String.append_assoc] at h
  exact append_left_cancel_str _ _ _ (append_left_cancel_str _ _ _
    (append_left_cancel_str _ _ _ h))

theorem append_right_inj_str (a b c : String) : a ++ b = a ++ c ↔ b = c :=
  ⟨append_left_cancel_str a b c, fun h => by rw [h]⟩

/-- What `mqttCallback` does on each of the six topics it compares with, for a payload of
1 to 200 bytes. -/
theorem mqttCallback_recognised (o : MyOptions) (buf : List Nat) (len : Nat)
    (h1 : 1 ≤ len) (h2 : len ≤ 200) :
    mqttCallback (some o) (some (o.mqttName ++ topic_deep_sleep)) (some buf) len =
      some { o with isDeepSleepEnabled := intToBool (atoi (buf.take len)) } ∧
    mqttCallback (some o) (some (o.mqttName ++ topic_power_on)) (some buf) len =
      some { o with powerOn := intToBool (atoi (buf.take len)) } ∧
    mqttCallback (some o) (some (o.mqttName ++ topic_gps_enabled)) (some buf) len =
      some { o with isGpsEnabled := intToBool (atoi (buf.take len)) } ∧
    mqttCallback (some o) (some (o.mqttName ++ topic_send_on_move_every)) (some buf) len =
      some { o with mqttSendOnMoveEverySec := atoi (buf.take len) } ∧
    mqttCallback (some o) (some (o.mqttName ++ topic_send_on_non_move_every)) (some buf) len =
      some { o with mqttSendOnNonMoveEverySec := atoi (buf.take len) } ∧
    mqttCallback (some o) (some (o.mqttName ++ topic_send_every)) (some buf) len =
      some { o with mqttSendOnNonMoveEverySec := atoi (buf.take len) } := by
  have hg0 : len ≠ 0 := by omega
  have hg1 : ¬ 200 < len := by omega
  refine ⟨?_, ?_, ?_, ?_, ?_, ?_⟩ <;>
    simp [mqttCallback, hg0, hg1, append_right_inj_str, topic_deep_sleep, topic_power_on,
      topic_gps_enabled, topic_send_on_move_every, topic_send_on_non_move_every,
      topic_send_every]

/-- C9: a payload longer than 200 bytes is dropped on every topic (the Settings object,
or the null pointer, is returned as it was), and 200 is the last length still processed:
with `len = 200` each of the six topics the callback compares with overwrites its field
with the parsed payload. -/
theorem mqttCallback_payload_bound (g : Option MyOptions) (topic : Option String)
    (payload : Option (List Nat)) (len : Nat) (hbig : 200 < len)
    (o : MyOptions) (buf : List Nat) :
    mqttCallback g topic payload len = g ∧
    mqttCallback (some o) (some (o.mqttName ++ topic_deep_sleep)) (some buf) 200 =
      some { o with isDeepSleepEnabled := intToBool (atoi (buf.take 200)) } ∧
    mqttCallback (some o) (some (o.mqttName ++ topic_power_on)) (some buf) 200 =
      some { o with powerOn := intToBool (atoi (buf.take 200)) } ∧
    mqttCallback (some o) (some (o.mqttName ++ topic_gps_enabled)) (some buf) 200 =
      some { o with isGpsEnabled := intToBool (atoi (buf.take 200)) } ∧
    mqttCallback (some o) (some (o.mqttName ++ topic_send_on_move_every)) (some buf) 200 =
      some { o with mqttSendOnMoveEverySec := atoi (buf.take 200) } ∧
    mqttCallback (some o) (some (o.mqttName ++ topic_send_on_non_move_every)) (some buf) 200 =
      some { o with mqttSendOnNonMoveEverySec := atoi (buf.take 200) } ∧
    mqttCallback (some o) (some (o.mqttName ++ topic_send_every)) (some buf) 200 =
      some { o with mqttSendOnNonMoveEverySec := atoi (buf.take 200) } := by
  refine ⟨?_, mqttCallback_recognised o buf 200 (by decide) (by decide)⟩
  cases topic with
  | none => cases payload <;> rfl
  | some t =>
    cases payload with
    | none => rfl
    | some b => simp [mqttCallback, hbig]

set_option maxRecDepth 4000 in
/-- C9, at concrete inputs: on "snork/DeepSleep", 200 blanks followed by "1" (201 bytes)
leave the Settings as they were, and 199 blanks followed by "1" (200 bytes) set the
deep-sleep flag. -/
theorem mqttCallback_payload_bound_witness :
    mqttCallback (some sampleOptions) (some "snork/DeepSleep")
      (some (List.replicate 200 32 ++ [49])) 201 = some sampleOptions ∧
    (mqttCallback (some sampleOptions) (some "snork/DeepSleep")
      (some (List.replicate 199 32 ++ [49])) 200).map (fun o => o.isDeepSleepEnabled)
      = some true := by
  have h := mqttCallback_payload_bound (some sampleOptions) (some "snork/DeepSleep")
    (some (List.replicate 200 32 ++ [49])) 201 (by decide) sampleOptions
    (List.replicate 199 32 ++ [49])
  refine ⟨h.1, ?_⟩
  have h2 := h.2.1
  have hname : sampleOptions.mqttName ++ topic_deep_sleep = "snork/DeepSleep" := by decide
  rw [hname] at h2
  rw [h2]
  decide

theorem digitsValue_not_digit (acc : Nat) (d : Nat) (rest : List Nat)
    (h : isDigit d = false) : digitsValue acc (d :: rest) = acc := by
  simp [digitsValue, h]

theorem atoi_eq_zero (s : List Nat) (h : startsWithInteger s = false) : atoi s = 0 := by
  unfold startsWithInteger at h
  unfold atoi
  cases hd : s.dropWhile isSpace with
  | nil => simp [digitsValue]
  | cons c rest =>
    rw [hd] at h
    simp only at h
    by_cases h45 : c = 45
    · subst h45
      cases rest with
      | nil => simp [digitsValue]
      | cons d r =>
        simp only [true_or, if_true] at h
        simp [digitsValue_not_digit 0 d r h]
    · by_cases h43 : c = 43
      · subst h43
        cases rest with
        | nil => simp [digitsValue]
        | cons d r =>
          simp only [or_true, if_true] at h
          simp [digitsValue_not_digit 0 d r h]
      · simp only [h45, h43, or_self, if_false] at h
        have hv := digitsValue_not_digit 0 c rest h
        split
        · next r heq => exact absurd (List.cons.inj heq).1 h45
        · next r heq => exact absurd (List.cons.inj heq).1 h43
        · simp [hv]

/-- C10 (the claim fails on the code): the empty payload (length 0) does not start with a
decimal integer, yet on "snork/SendOnMoveEverySec" it leaves the interval at 5 instead of
setting it to 0: a call with `len <= 0` returns before any field is written. -/
theorem mqttCallback_empty_payload_dropped :
    startsWithInteger [] = false ∧
    sampleOptions.mqttName ++ topic_send_on_move_every = "snork/SendOnMoveEverySec" ∧
    mqttCallback (some sampleOptions) (some "snork/SendOnMoveEverySec") (some []) 0
      = some sampleOptions ∧
    (mqttCallback (some sampleOptions) (some "snork/SendOnMoveEverySec") (some []) 0).map
      (fun o => o.mqttSendOnMoveEverySec) = some 5 :=
  ⟨by decide, by decide, rfl, by decide⟩

theorem mqttCallback_len_zero (g : Option MyOptions) (topic : Option String)
    (payload : Option (List Nat)) : mqttCallback g topic payload 0 = g := by
  cases topic with
  | none => cases payload <;> rfl
  | some t =>
    cases payload with
    | none => rfl
    | some b => simp [mqttCallback]

/-- C10, amended: for a payload of 1 to 200 bytes that does not start with a decimal
integer, each of the six topics the callback compares with sets its field to 0 (false for
a flag) and nothing else; the payload is not rejected. A call with length 0 is dropped:
for every Settings pointer, topic and payload it returns the Settings as they were. -/
theorem mqttCallback_malformed_zero (o : MyOptions) (buf : List Nat) (len : Nat)
    (h1 : 1 ≤ len) (h2 : len ≤ 200) (hbad : startsWithInteger (buf.take len) = false) :
    mqttCallback (some o) (some (o.mqttName ++ topic_deep_sleep)) (some buf) len =
      some { o with isDeepSleepEnabled := false } ∧
    mqttCallback (some o) (some (o.mqttName ++ topic_power_on)) (some buf) len =
      some { o with powerOn := false } ∧
    mqttCallback (some o) (some (o.mqttName ++ topic_gps_enabled)) (some buf) len =
      some { o with isGpsEnabled := false } ∧
    mqttCallback (some o) (some (o.mqttName ++ topic_send_on_move_every)) (some buf) len =
      some { o with mqttSendOnMoveEverySec := 0 } ∧
    mqttCallback (some o) (some (o.mqttName ++ topic_send_on_non_move_every)) (some buf) len =
      some { o with mqttSendOnNonMoveEverySec := 0 } ∧
    mqttCallback (some o) (some (o.mqttName ++ topic_send_every)) (some buf) len =
      some { o with mqttSendOnNonMoveEverySec := 0 } ∧
    (∀ (g : Option MyOptions) (topic : Option String) (payload : Option (List Nat)),
      mqttCallback g topic payload 0 = g) := by
  have h := mqttCallback_recognised o buf len h1 h2
  rw [atoi_eq_zero _ hbad] at h
  exact ⟨h.1, h.2.1, h.2.2.1, h.2.2.2.1, h.2.2.2.2.1, h.2.2.2.2.2, mqttCallback_len_zero⟩

/-- C10, at a concrete input: the payload "abc" on "snork/SendOnMoveEverySec" sets the
interval, 5 before the call, to 0; the same bytes with length 0 on "snork/DeepSleep" leave
the Settings as they were. -/
theorem mqttCallback_malformed_zero_witness :
    startsWithInteger (bytes "abc") = false ∧
    sampleOptions.mqttSendOnMoveEverySec = 5 ∧
    mqttCallback (some sampleOptions) (some (sampleOptions.mqttName ++ topic_send_on_move_every))
      (some (bytes "abc")) 3 = some { sampleOptions with mqttSendOnMoveEverySec := 0 } ∧
    mqttCallback (some sampleOptions) (some "snork/DeepSleep") (some (bytes "abc")) 0
      = some sampleOptions :=
  ⟨by decide, by decide,
   (mqttCallback_malformed_zero sampleOptions (bytes "abc") 3 (by decide) (by decide)
      (by decide)).2.2.2.1,
   (mqttCallback_malformed_zero sampleOptions (bytes "abc") 3 (by decide) (by decide)
      (by decide)).2.2.2.2.2.2 (some sampleOptions) (some "snork/DeepSleep")
      (some (bytes "abc"))⟩

/-! ## C11, C12 -/

/-- C11: `myPublish` with a zero-length value makes no call (the run is returned as it
was) and returns false; with a non-empty value it makes exactly one `publish` call, with
that value, and returns the result of that call. -/
theorem myPublish_empty_or_once {σ : Type} (E : Env σ) (m : MyMqtt) (sub empty value : String)
    (k : Run σ) (hempty : empty.length = 0) (hvalue : 0 < value.length) :
    myPublish E m sub empty k = (false, k) ∧
    (myPublish E m sub value k).1 =
      (E.publish (m.myOptions.mqttName ++ "/" ++ m.myOptions.mqttId ++ sub) value true k.w).1 ∧
    (myPublish E m sub value k).2.log = k.log ++
      [Event.publish (m.myOptions.mqttName ++ "/" ++ m.myOptions.mqttId ++ sub) value true
        (myPublish E m sub value k).1] ∧
    (myPublish E m sub value k).2.w =
      (E.publish (m.myOptions.mqttName ++ "/" ++ m.myOptions.mqttId ++ sub) value true k.w).2 ∧
    ((myPublish E m sub value k).2.log.filter Event.isPublish).length =
      (k.log.filter Event.isPublish).length + 1 := by
  refine ⟨?_, ?_, ?_, ?_, ?_⟩
  · simp [myPublish, hempty]
  · simp [myPublish, hvalue, callPublish]
  · simp [myPublish, hvalue, callPublish]
  · simp [myPublish, hvalue, callPublish]
  · simp [myPublish, hvalue, callPublish, List.filter_append, Event.isPublish]

/-- C11, at a concrete input: with the link up at an even millisecond, the empty signal
quality gives no call and false, the voltage "3.71" gives one call and its result true. -/
theorem myPublish_empty_or_once_witness :
    sampleMqtt.myData.signalQuality = "" ∧
    myPublish simEnv sampleMqtt topic_signal_quality "" { w := upWorld, log := [] }
      = (false, { w := upWorld, log := [] }) ∧
    (myPublish simEnv sampleMqtt topic_voltage "3.71" { w := upWorld, log := [] }).1 = true ∧
    (myPublish simEnv sampleMqtt topic_voltage "3.71" { w := upWorld, log := [] }).2.log
      = [Event.publish "snork/1/Voltage" "3.71" true true] :=
  ⟨rfl,
   (myPublish_empty_or_once simEnv sampleMqtt topic_signal_quality "" "3.71"
      { w := upWorld, log := [] } (by decide) (by decide)).1,
   by decide,
   (myPublish_empty_or_once simEnv sampleMqtt topic_voltage "" "3.71"
      { w := upWorld, log := [] } (by decide) (by decide)).2.2.1⟩

/-- C12: after `readVoltage`, and after `begin`, `isLowPower` is true if and only if the
sample is strictly below `powerSaveModeVoltage`, whatever the mode was before; a sample
equal to the threshold gives high power. -/
theorem isLowPower_iff_below_threshold (v : MyVoltage) (ms : Nat) (volt : ℚ) :
    ((v.readVoltage ms volt).myData.isLowPower = true ↔
      volt < v.myOptions.powerSaveModeVoltage) ∧
    ((v.begin ms volt).myData.isLowPower = true ↔ volt < v.myOptions.powerSaveModeVoltage) ∧
    (v.readVoltage ms v.myOptions.powerSaveModeVoltage).myData.isLowPower = false ∧
    (v.begin ms v.myOptions.powerSaveModeVoltage).myData.isLowPower = false ∧
    (∀ before : Bool,
      (MyVoltage.readVoltage ms volt
        { v with myData := { v.myData with isLowPower := before } }).myData.isLowPower =
      (v.readVoltage ms volt).myData.isLowPower) := by
  refine ⟨?_, ?_, ?_, ?_, ?_⟩
  · simp [MyVoltage.readVoltage]
  · simp [MyVoltage.begin]
  · simp [MyVoltage.readVoltage]
  · simp [MyVoltage.begin]
  · intro before
    simp [MyVoltage.readVoltage]

/-! ## C13 -/

theorem conforms_snoc (o : MyOptions) (log : List Event) (e : Event)
    (h : ∀ x ∈ log, x.conforms o) (he : e.conforms o) : ∀ x ∈ log ++ [e], x.conforms o := by
  intro x hx
  rcases List.mem_append.mp hx with h1 | h1
  · exact h x h1
  · rw [List.mem_singleton.mp h1]; exact he

theorem callConnected_conforms {σ : Type} (E : Env σ) (o : MyOptions) (k : Run σ)
    (h : ∀ x ∈ k.log, x.conforms o) : ∀ x ∈ (callConnected E k).2.log, x.conforms o :=
  conforms_snoc o k.log _ h trivial

theorem callConnect_conforms {σ : Type} (E : Env σ) (o : MyOptions) (a b c : String)
    (k : Run σ) (h : ∀ x ∈ k.log, x.conforms o) :
    ∀ x ∈ (callConnect E a b c k).2.log, x.conforms o :=
  conforms_snoc o k.log _ h trivial

theorem callDelay_conforms {σ : Type} (E : Env σ) (o : MyOptions) (ms : Nat) (k : Run σ)
    (h : ∀ x ∈ k.log, x.conforms o) : ∀ x ∈ (callDelay E ms k).log, x.conforms o :=
  conforms_snoc o k.log _ h trivial

theorem mySubscribe_conforms {σ : Type} (E : Env σ) (m : MyMqtt) (sub : String) (k : Run σ)
    (hsub : sub ∈ subscribedTopics) (h : ∀ x ∈ k.log, x.conforms m.myOptions) :
    ∀ x ∈ (mySubscribe E m sub k).2.log, x.conforms m.myOptions :=
  conforms_snoc m.myOptions k.log _ h ⟨sub, hsub, rfl⟩

theorem subscribeAll_conforms {σ : Type} (E : Env σ) (m : MyMqtt) (k : Run σ)
    (h : ∀ x ∈ k.log, x.conforms m.myOptions) :
    ∀ x ∈ (subscribeAll E m k).log, x.conforms m.myOptions := by
  unfold subscribeAll
  exact mySubscribe_conforms E m _ _ (by decide)
    (mySubscribe_conforms E m _ _ (by decide)
      (mySubscribe_conforms E m _ _ (by decide)
        (mySubscribe_conforms E m _ _ (by decide)
          (mySubscribe_conforms E m _ _ (by decide) h))))

theorem connectLoop_conforms {σ : Type} (E : Env σ) (m : MyMqtt) (n : Nat) (k : Run σ)
    (h : ∀ x ∈ k.log, x.conforms m.myOptions) :
    ∀ x ∈ (connectLoop E m n k).log, x.conforms m.myOptions := by
  induction n generalizing k with
  | zero => exact callConnected_conforms E _ k h
  | succ n ih =>
    simp only [connectLoop]
    split
    · exact callConnected_conforms E _ k h
    · split
      · exact ih _ (subscribeAll_conforms E m _
          (callConnect_conforms E _ _ _ _ _ (callConnected_conforms E _ k h)))
      · exact ih _ (callDelay_conforms E _ _ _
          (callConnect_conforms E _ _ _ _ _ (callConnected_conforms E _ k h)))

theorem connectStep_conforms {σ : Type} (E : Env σ) (m : MyMqtt) (k : Run σ)
    (h : ∀ x ∈ k.log, x.conforms m.myOptions) :
    ∀ x ∈ (connectStep E m k).log, x.conforms m.myOptions := by
  simp only [connectStep]
  split
  · exact connectLoop_conforms E m 5 _ (callConnected_conforms E _ k h)
  · exact callConnected_conforms E _ k h

theorem myPublish_conforms {σ : Type} (E : Env σ) (m : MyMqtt) (sub value : String)
    (k : Run σ) (hsub : sub ∈ telemetryTopics) (h : ∀ x ∈ k.log, x.conforms m.myOptions) :
    ∀ x ∈ (myPublish E m sub value k).2.log, x.conforms m.myOptions := by
  unfold myPublish
  split
  · exact conforms_snoc m.myOptions k.log _ h ⟨rfl, sub, hsub, rfl⟩
  · exact h

theorem publishRound_conforms {σ : Type} (E : Env σ) (sim808 : Bool) (v : Rendered)
    (m : MyMqtt) (k : Run σ) (h : ∀ x ∈ k.log, x.conforms m.myOptions) :
    ∀ x ∈ (publishRound E sim808 v m k).log, x.conforms m.myOptions := by
  have h7 := myPublish_conforms E m topic_pressure v.pressure _ (by decide)
    (myPublish_conforms E m topic_humidity v.humidity _ (by decide)
    (myPublish_conforms E m topic_temperature v.temperature _ (by decide)
    (myPublish_conforms E m topic_alive v.alive _ (by decide)
    (myPublish_conforms E m topic_mAhLowPower v.mAhLowPower _ (by decide)
    (myPublish_conforms E m topic_mAh v.mAh _ (by decide)
    (myPublish_conforms E m topic_voltage v.voltage k (by decide) h))))))
  have h10 := myPublish_conforms E m topic_batt_volt m.myData.batteryVolt _ (by decide)
    (myPublish_conforms E m topic_batt_level m.myData.batteryLevel _ (by decide)
    (myPublish_conforms E m topic_signal_quality m.myData.signalQuality _ (by decide) h7))
  have h14 := myPublish_conforms E m topic_kmph m.myData.rtcData.lastGps.kmphString _
      (by decide)
    (myPublish_conforms E m topic_alt m.myData.rtcData.lastGps.altitudeString _ (by decide)
    (myPublish_conforms E m topic_lat m.myData.rtcData.lastGps.latitudeString _ (by decide)
    (myPublish_conforms E m topic_lon m.myData.rtcData.lastGps.longitudeString _ (by decide)
      h10)))
  unfold publishRound
  cases sim808 with
  | false => exact h7
  | true =>
    cases hf : m.myData.rtcData.lastGps.fixStatus with
    | false => simp only [if_true, Bool.false_eq_true, if_false]; exact h10
    | true => simp only [if_true]; exact h14

/-- C13: the one `publish` call that `myPublish` makes for a non-empty value has the topic
name, slash, id, sub-topic, and the retain flag true; the `subscribe` call of
`mySubscribe` has the topic built by the same rule; and in the calls of a whole
`handleClient` call every `publish` is retained with such a topic for one of the telemetry
sub-topics, every `subscribe` has such a topic for one of the subscribed sub-topics. -/
theorem topics_follow_naming_rule {σ : Type} (E : Env σ) (sim808 : Bool) (v : Rendered)
    (m : MyMqtt) (sub value : String) (k : Run σ) (w : σ) :
    (∀ e ∈ (myPublish E m sub value k).2.log, e ∈ k.log ∨
      ∃ r, e = Event.publish (m.myOptions.mqttName ++ "/" ++ m.myOptions.mqttId ++ sub)
        value true r) ∧
    (∃ r, (mySubscribe E m sub k).2.log = k.log ++
      [Event.subscribe (m.myOptions.mqttName ++ "/" ++ m.myOptions.mqttId ++ sub) r]) ∧
    (∀ e ∈ (handleClient E sim808 v m w).2.log, e.conforms m.myOptions) := by
  refine ⟨?_, ⟨_, rfl⟩, ?_⟩
  · intro e he
    unfold myPublish at he
    split at he
    · rcases List.mem_append.mp he with h1 | h1
      · exact Or.inl h1
      · exact Or.inr ⟨_, List.mem_singleton.mp h1⟩
    · exact Or.inl he
  · cases hc : ((sendDue E m w || m.myData.mqttInitSend) && !m.publishInProgress) with
    | false => rw [handleClient_idle E sim808 v m w hc]; intro e he; cases he
    | true =>
      rw [handleClient_round E sim808 v m w hc]
      have h1 : ∀ x ∈ (connectPhase E m w).2.log, x.conforms m.myOptions :=
        callConnected_conforms E _ _
          (connectStep_conforms E { m with publishInProgress := true } _
            (by intro x hx; cases hx))
      split
      · exact callDelay_conforms E _ _ _
          (publishRound_conforms E sim808 v { m with publishInProgress := true } _ h1)
      · exact h1

/-! ## C14 -/

/-- C14: for every Settings object, every payload and length, and every topic that is not
the name followed by one of the six handled suffixes, `mqttCallback` returns the Settings
object as it was. -/
theorem mqttCallback_unknown_topic (o : MyOptions) (topic : String)
    (payload : Option (List Nat)) (len : Nat)
    (hne : ∀ suf ∈ handledTopics, topic ≠ o.mqttName ++ suf) :
    mqttCallback (some o) (some topic) payload len = some o := by
  have n1 := hne topic_deep_sleep (by decide)
  have n2 := hne topic_power_on (by decide)
  have n3 := hne topic_gps_enabled (by decide)
  have n4 := hne topic_send_on_move_every (by decide)
  have n5 := hne topic_send_on_non_move_every (by decide)
  have n6 := hne topic_send_every (by decide)
  cases payload with
  | none => rfl
  | some buf =>
    simp only [mqttCallback]
    split
    · rfl
    · simp [n1, n2, n3, n4, n5, n6]

/-- C14, at a concrete input: the payload "1" on "snork/Voltage", which is not a handled
topic for the name "snork", leaves the Settings as they were. -/
theorem mqttCallback_unknown_topic_witness :
    mqttCallback (some sampleOptions) (some "snork/Voltage") (some (bytes "1")) 1
      = some sampleOptions :=
  mqttCallback_unknown_topic sampleOptions "snork/Voltage" (some (bytes "1")) 1 (by decide)

/-! ## C16 -/

theorem publishRound_eq_foldl {σ : Type} (E : Env σ) (sim808 : Bool) (v : Rendered)
    (m : MyMqtt) (k : Run σ) :
    publishRound E sim808 v m k =
      (roundOffers sim808 v m).foldl (fun r p => (myPublish E m p.1 p.2 r).2) k := by
  unfold publishRound roundOffers
  cases sim808 with
  | false => rfl
  | true => cases m.myData.rtcData.lastGps.fixStatus <;> rfl

theorem roundTopics_eq_offersTopics (sim808 : Bool) (v : Rendered) (m : MyMqtt) :
    roundTopics sim808 v m = offersTopics m.myOptions (roundOffers sim808 v m) := by
  unfold roundTopics roundOffers
  cases sim808 with
  | false => rfl
  | true => cases m.myData.rtcData.lastGps.fixStatus <;> rfl

theorem mem_offersTopics (o : MyOptions) (l : List (String × String)) (t : String)
    (h : t ∈ offersTopics o l) : ∃ p ∈ l, t = fullTopic o p.1 := by
  induction l with
  | nil => cases h
  | cons p rest ih =>
    simp only [offersTopics, List.mem_append] at h
    rcases h with h | h
    · unfold offered at h
      split at h
      · exact ⟨p, List.mem_cons_self _ _, List.mem_singleton.mp h⟩
      · cases h
    · obtain ⟨q, hq, hq2⟩ := ih h
      exact ⟨q, List.mem_cons_of_mem _ hq, hq2⟩

theorem gps_offered_iff (sim808 : Bool) (v : Rendered) (m : MyMqtt) (s : String)
    (hs : s ∈ gpsTopics) :
    s ∈ (roundOffers sim808 v m).map Prod.fst ↔
      (sim808 = true ∧ m.myData.rtcData.lastGps.fixStatus = true) := by
  simp only [gpsTopics, List.mem_cons, List.mem_singleton, List.not_mem_nil, or_false] at hs
  cases sim808 <;> cases hf : m.myData.rtcData.lastGps.fixStatus <;>
    rcases hs with h | h | h | h <;> subst h <;>
    simp [roundOffers, hf] <;> decide

theorem gsm_offered_iff (sim808 : Bool) (v : Rendered) (m : MyMqtt) (s : String)
    (hs : s ∈ gsmTopics) :
    s ∈ (roundOffers sim808 v m).map Prod.fst ↔ sim808 = true := by
  simp only [gsmTopics, List.mem_cons, List.mem_singleton, List.not_mem_nil, or_false] at hs
  cases sim808 <;> cases hf : m.myData.rtcData.lastGps.fixStatus <;>
    rcases hs with h | h | h <;> subst h <;>
    simp [roundOffers, hf] <;> decide

theorem published_is_offered (sim808 : Bool) (v : Rendered) (m : MyMqtt) (s : String)
    (h : fullTopic m.myOptions s ∈ roundTopics sim808 v m) :
    s ∈ (roundOffers sim808 v m).map Prod.fst := by
  rw [roundTopics_eq_offersTopics] at h
  obtain ⟨p, hp, hp2⟩ := mem_offersTopics _ _ _ h
  rw [fullTopic_injective m.myOptions hp2]
  exact List.mem_map_of_mem Prod.fst hp

theorem handleClient_publishTopics {σ : Type} (E : Env σ) (sim808 : Bool) (v : Rendered)
    (m : MyMqtt) (w : σ) :
    publishTopics (handleClient E sim808 v m w).2.log = roundTopics sim808 v m ∨
    publishTopics (handleClient E sim808 v m w).2.log = [] := by
  cases hc : ((sendDue E m w || m.myData.mqttInitSend) && !m.publishInProgress) with
  | false => rw [handleClient_idle E sim808 v m w hc]; exact Or.inr rfl
  | true =>
    rw [handleClient_round E sim808 v m w hc]
    have h0 : publishTopics (connectPhase E m w).2.log = [] := by
      unfold connectPhase
      rw [callConnected_topics, connectStep_topics]
      rfl
    split
    · left
      rw [callDelay_topics]
      unfold publishPhase
      rw [publishRound_topics, h0]
      simp [roundTopics]
    · exact Or.inr h0

/-- C16: the `myPublish` calls of a publish round are those of `roundOffers`, in order. A
GPS sub-topic is among them if and only if the optional hardware is configured and
`lastGps.fixStatus` is true; a GSM sub-topic if and only if the optional hardware is
configured (whatever the fix status). The `publish` calls of the round are those offers
that have a non-empty value, so in a whole `handleClient` call a GPS topic is published
only with the hardware and a valid fix, a GSM topic only with the hardware. -/
theorem gps_gsm_gating {σ : Type} (E : Env σ) (sim808 : Bool) (v : Rendered) (m : MyMqtt)
    (k : Run σ) (w : σ) :
    publishRound E sim808 v m k =
      (roundOffers sim808 v m).foldl (fun r p => (myPublish E m p.1 p.2 r).2) k ∧
    (∀ s ∈ gpsTopics, (s ∈ (roundOffers sim808 v m).map Prod.fst ↔
      (sim808 = true ∧ m.myData.rtcData.lastGps.fixStatus = true))) ∧
    (∀ s ∈ gsmTopics, (s ∈ (roundOffers sim808 v m).map Prod.fst ↔ sim808 = true)) ∧
    publishTopics (publishRound E sim808 v m k).log =
      publishTopics k.log ++ offersTopics m.myOptions (roundOffers sim808 v m) ∧
    (∀ s ∈ gpsTopics,
      m.myOptions.mqttName ++ "/" ++ m.myOptions.mqttId ++ s ∈
        publishTopics (handleClient E sim808 v m w).2.log →
      (sim808 = true ∧ m.myData.rtcData.lastGps.fixStatus = true)) ∧
    (∀ s ∈ gsmTopics,
      m.myOptions.mqttName ++ "/" ++ m.myOptions.mqttId ++ s ∈
        publishTopics (handleClient E sim808 v m w).2.log → sim808 = true) := by
  refine ⟨publishRound_eq_foldl E sim808 v m k, gps_offered_iff sim808 v m,
    gsm_offered_iff sim808 v m, ?_, ?_, ?_⟩
  · rw [publishRound_topics, roundTopics_eq_offersTopics]
  · intro s hs hmem
    rcases handleClient_publishTopics E sim808 v m w with h | h
    · rw [h] at hmem
      exact (gps_offered_iff sim808 v m s hs).mp (published_is_offered sim808 v m s hmem)
    · rw [h] at hmem; cases hmem
  · intro s hs hmem
    rcases handleClient_publishTopics E sim808 v m w with h | h
    · rw [h] at hmem
      exact (gsm_offered_iff sim808 v m s hs).mp (published_is_offered sim808 v m s hmem)
    · rw [h] at hmem; cases hmem

/-- C16, at concrete inputs: link up, send due, all values non-empty except the signal
quality. With the hardware and a valid fix the round publishes 13 topics, the last being
the speed; with the hardware and no fix it publishes 9, the last being the GSM battery
voltage; without the hardware it publishes the 7 base topics. -/
theorem gps_gsm_gating_witness :
    publishTopics (handleClient simEnv true sampleRendered sampleMqtt upWorld).2.log =
      ["snork/1/Voltage", "snork/1/mAh", "snork/1/mAhLowPower", "snork/1/Alive",
       "snork/1/BME280/Temperature", "snork/1/BME280/Humidity", "snork/1/BME280/Pressure",
       "snork/1/Gsm/BattLevel", "snork/1/Gsm/BattVolt", "snork/1/Gps/Longitude",
       "snork/1/Gps/Latitude", "snork/1/Gps/Altitude", "snork/1/Gps/Kmh"] ∧
    publishTopics (handleClient simEnv true sampleRendered noFixMqtt upWorld).2.log =
      ["snork/1/Voltage", "snork/1/mAh", "snork/1/mAhLowPower", "snork/1/Alive",
       "snork/1/BME280/Temperature", "snork/1/BME280/Humidity", "snork/1/BME280/Pressure",
       "snork/1/Gsm/BattLevel", "snork/1/Gsm/BattVolt"] ∧
    publishTopics (handleClient simEnv false sampleRendered sampleMqtt upWorld).2.log =
      ["snork/1/Voltage", "snork/1/mAh", "snork/1/mAhLowPower", "snork/1/Alive",
       "snork/1/BME280/Temperature", "snork/1/BME280/Humidity", "snork/1/BME280/Pressure"] ∧
    (topic_lon ∈ (roundOffers true sampleRendered noFixMqtt).map Prod.fst ↔
      (true = true ∧ noFixMqtt.myData.rtcData.lastGps.fixStatus = true)) :=
  ⟨by decide, by decide, by decide,
   (gps_gsm_gating simEnv true sampleRendered noFixMqtt { w := upWorld, log := [] }
      upWorld).2.1 topic_lon (by decide)⟩

/-! ## C17, C19 -/

theorem handleClient_not_in_progress {σ : Type} (E : Env σ) (sim808 : Bool) (v : Rendered)
    (m : MyMqtt) (w : σ) (h : m.publishInProgress = false) :
    (handleClient E sim808 v m w).1.publishInProgress = false := by
  cases hc : ((sendDue E m w || m.myData.mqttInitSend) && !m.publishInProgress) with
  | false => rw [handleClient_idle E sim808 v m w hc]; exact h
  | true =>
    rw [handleClient_round E sim808 v m w hc]
    split <;> rfl

theorem reachable_not_in_progress (m : MyMqtt) (h : Reachable m) :
    m.publishInProgress = false := by
  induction h with
  | init o d => rfl
  | call E sim808 v m w _ ih => exact handleClient_not_in_progress E sim808 v m w ih
  | touch m o d _ ih => exact ih

theorem handleClient_keeps_initSend {σ : Type} (E : Env σ) (sim808 : Bool) (v : Rendered)
    (m : MyMqtt) (w : σ) :
    (handleClient E sim808 v m w).1.myData.mqttInitSend = m.myData.mqttInitSend := by
  cases hc : ((sendDue E m w || m.myData.mqttInitSend) && !m.publishInProgress) with
  | false => rw [handleClient_idle E sim808 v m w hc]
  | true =>
    rw [handleClient_round E sim808 v m w hc]
    split <;> rfl

/-- C17: `publishInProgress` is false after construction, and in every state reachable
between calls; a `handleClient` call from such a state returns with it false, in every
environment; so between calls `waitingForMqtt` is the interval test alone: it equals the
due value, true exactly when the elapsed seconds have reached the selected interval. -/
theorem publishInProgress_false_between_calls {σ : Type} (E : Env σ) (sim808 : Bool)
    (v : Rendered) (m : MyMqtt) (w : σ) (o : MyOptions) (d : MyData) (hr : Reachable m) :
    (MyMqtt.new o d).publishInProgress = false ∧
    m.publishInProgress = false ∧
    (handleClient E sim808 v m w).1.publishInProgress = false ∧
    waitingForMqtt E m w = sendDue E m w ∧
    (waitingForMqtt E m w = true ↔ selectedInterval m ≤ elapsedSec E m w) := by
  have hp := reachable_not_in_progress m hr
  have hw : waitingForMqtt E m w = sendDue E m w := by
    unfold waitingForMqtt sendDue
    rw [hp]
    simp
  refine ⟨rfl, hp, handleClient_not_in_progress E sim808 v m w hp, hw, ?_⟩
  rw [hw]
  exact sendDue_iff E m w

/-- C17, at a concrete input: the object after an abandoned round (unreachable broker,
second 5) followed by a write of the referenced data. -/
theorem publishInProgress_false_between_calls_witness :
    ({ (handleClient deadEnv true sampleRendered sampleMqtt 5000).1 with
        myOptions := sampleOptions, myData := sampleData } : MyMqtt).publishInProgress = false ∧
    (handleClient simEnv true sampleRendered
      { (handleClient deadEnv true sampleRendered sampleMqtt 5000).1 with
        myOptions := sampleOptions, myData := sampleData } upWorld).1.publishInProgress
      = false :=
  ⟨(publishInProgress_false_between_calls simEnv true sampleRendered _ upWorld sampleOptions
      sampleData (Reachable.touch _ sampleOptions sampleData
        (Reachable.call deadEnv true sampleRendered sampleMqtt 5000
          (Reachable.init sampleOptions sampleData)))).2.1,
   (publishInProgress_false_between_calls simEnv true sampleRendered _ upWorld sampleOptions
      sampleData (Reachable.touch _ sampleOptions sampleData
        (Reachable.call deadEnv true sampleRendered sampleMqtt 5000
          (Reachable.init sampleOptions sampleData)))).2.2.1⟩

theorem connectPhase_of_connected {σ : Type} (E : Env σ) (m : MyMqtt) (w : σ)
    (hup : ∀ x, (E.connected x).1 = true) : (connectPhase E m w).1 = true := by
  unfold connectPhase callConnected
  exact hup _

theorem handleClient_initSend_round {σ : Type} (E : Env σ) (sim808 : Bool) (v : Rendered)
    (m : MyMqtt) (w : σ) (hp : m.publishInProgress = false)
    (hinit : m.myData.mqttInitSend = true) (hup : ∀ x, (E.connected x).1 = true) :
    (handleClient E sim808 v m w).1.myData.rtcData.mqttSendCount =
      m.myData.rtcData.mqttSendCount + 1 := by
  have hstart : ((sendDue E m w || m.myData.mqttInitSend) && !m.publishInProgress) = true := by
    rw [hp, hinit]; simp
  rw [handleClient_round E sim808 v m w hstart, connectPhase_of_connected E m w hup]
  rfl

theorem runCalls_initSend {σ : Type} (E : Env σ) (sim808 : Bool)
    (calls : List (Rendered × σ)) (m : MyMqtt) (hp : m.publishInProgress = false)
    (hinit : m.myData.mqttInitSend = true) (hup : ∀ x, (E.connected x).1 = true) :
    (runCalls E sim808 m calls).myData.rtcData.mqttSendCount =
      m.myData.rtcData.mqttSendCount + calls.length ∧
    (runCalls E sim808 m calls).myData.mqttInitSend = true := by
  induction calls generalizing m with
  | nil => exact ⟨rfl, hinit⟩
  | cons c rest ih =>
    have h1 := handleClient_initSend_round E sim808 c.1 m c.2 hp hinit hup
    have h2 := handleClient_not_in_progress E sim808 c.1 m c.2 hp
    have h3 : (handleClient E sim808 c.1 m c.2).1.myData.mqttInitSend = true := by
      rw [handleClient_keeps_initSend]; exact hinit
    have h := ih (handleClient E sim808 c.1 m c.2).1 h2 h3
    unfold runCalls at h ⊢
    simp only [List.foldl_cons, List.length_cons]
    refine ⟨?_, h.2⟩
    rw [h.1, h1]
    omega

/-- C19: `handleClient` never changes `mqttInitSend`. From a state reachable between calls
with `mqttInitSend` true and a client that reports connected, every call does a full
round, whatever the elapsed time and the intervals: `mqttSendCount` grows by 1 in each
call (by the number of calls over a sequence of calls) and `mqttInitSend` stays true. -/
theorem mqttInitSend_never_cleared {σ : Type} (E : Env σ) (sim808 : Bool) (v : Rendered)
    (m : MyMqtt) (w : σ) (calls : List (Rendered × σ)) (hr : Reachable m)
    (hinit : m.myData.mqttInitSend = true) (hup : ∀ x, (E.connected x).1 = true) :
    (∀ (m2 : MyMqtt) (w2 : σ),
      (handleClient E sim808 v m2 w2).1.myData.mqttInitSend = m2.myData.mqttInitSend) ∧
    (handleClient E sim808 v m w).1.myData.rtcData.mqttSendCount =
      m.myData.rtcData.mqttSendCount + 1 ∧
    (handleClient E sim808 v m w).1.myData.mqttInitSend = true ∧
    (runCalls E sim808 m calls).myData.rtcData.mqttSendCount =
      m.myData.rtcData.mqttSendCount + calls.length ∧
    (runCalls E sim808 m calls).myData.mqttInitSend = true := by
  have hp := reachable_not_in_progress m hr
  have hrun := runCalls_initSend E sim808 calls m hp hinit hup
  refine ⟨fun m2 w2 => handleClient_keeps_initSend E sim808 v m2 w2,
    handleClient_initSend_round E sim808 v m w hp hinit hup, ?_, hrun.1, hrun.2⟩
  rw [handleClient_keeps_initSend]; exact hinit

/-- C19, at a concrete input: initial send pending, not moving, interval 60, last send at
second 0; three calls at seconds 1, 2 and 3 with the broker reachable take the send count
from 7 to 10 although no interval has elapsed, and the flag stays set. -/
theorem mqttInitSend_never_cleared_witness :
    initSendMqtt.myData.rtcData.mqttSendCount = 7 ∧
    sendDue liveEnv initSendMqtt 1000 = false ∧
    (handleClient liveEnv true sampleRendered initSendMqtt 1000).1.myData.rtcData.mqttSendCount
      = 8 ∧
    (runCalls liveEnv true initSendMqtt
      [(sampleRendered, 1000), (sampleRendered, 2000),
       (sampleRendered, 3000)]).myData.rtcData.mqttSendCount = 10 ∧
    (runCalls liveEnv true initSendMqtt
      [(sampleRendered, 1000), (sampleRendered, 2000),
       (sampleRendered, 3000)]).myData.mqttInitSend = true :=
  ⟨rfl, by decide,
   (mqttInitSend_never_cleared liveEnv true sampleRendered initSendMqtt 1000
      [(sampleRendered, 1000), (sampleRendered, 2000), (sampleRendered, 3000)]
      (Reachable.init _ _) rfl (fun _ => rfl)).2.1,
   (mqttInitSend_never_cleared liveEnv true sampleRendered initSendMqtt 1000
      [(sampleRendered, 1000), (sampleRendered, 2000), (sampleRendered, 3000)]
      (Reachable.init _ _) rfl (fun _ => rfl)).2.2.2.1,
   (mqttInitSend_never_cleared liveEnv true sampleRendered initSendMqtt 1000
      [(sampleRendered, 1000), (sampleRendered, 2000), (sampleRendered, 3000)]
      (Reachable.init _ _) rfl (fun _ => rfl)).2.2.2.2⟩

/-! ## C18 -/

theorem handleClient_dead_round {σ : Type} (E : Env σ) (sim808 : Bool) (v : Rendered)
    (m : MyMqtt) (w : σ)
    (hstart : ((sendDue E m w || m.myData.mqttInitSend) && !m.publishInProgress) = true)
    (hdown : ∀ x, (E.connected x).1 = false)
    (hfail : ∀ a b c x, (E.connect a b c x).1 = false) :
    (handleClient E sim808 v m w).1 =
      { myOptions := m.myOptions, myData := m.myData, publishInProgress := false } ∧
    (handleClient E sim808 v m w).2.log =
      [Event.connected false] ++ failedAttempt m.myOptions ++ failedAttempt m.myOptions ++
        failedAttempt m.myOptions ++ failedAttempt m.myOptions ++ failedAttempt m.myOptions ++
        [Event.connected false, Event.connected false] := by
  constructor
  · simp [handleClient, hstart, connectStep, connectLoop, callConnected, callConnect,
      callDelay, hdown, hfail]
  · simp [handleClient, hstart, connectStep, connectLoop, callConnected, callConnect,
      callDelay, hdown, hfail, failedAttempt]

theorem start_of_due {σ : Type} (E : Env σ) (m : MyMqtt) (w : σ)
    (hdue : selectedInterval m ≤ elapsedSec E m w ∨ m.myData.mqttInitSend = true)
    (hpip : m.publishInProgress = false) :
    ((sendDue E m w || m.myData.mqttInitSend) && !m.publishInProgress) = true := by
  rw [hpip]
  rcases hdue with h | h
  · rw [(sendDue_iff E m w).mpr h]; rfl
  · rw [h]; simp

/-- C18: when a round starts (due or initial send pending, no publish in progress) and the
broker stays unreachable (the client never reports connected, every connect attempt
fails), the call makes its 5 connect attempts and no `publish` call and returns the object
as it was, so `mqttSendCount` and `lastMqttSendSec` are unchanged; at a next call on the
returned object, in any world whose clock is not behind, the round starts again (the send
is still due, or the initial send still pending) and again makes 5 connect attempts. -/
theorem abandoned_round_changes_nothing {σ : Type} (E : Env σ) (sim808 : Bool)
    (v v2 : Rendered) (m : MyMqtt) (w w2 : σ)
    (hdue : selectedInterval m ≤ elapsedSec E m w ∨ m.myData.mqttInitSend = true)
    (hpip : m.publishInProgress = false)
    (hdown : ∀ x, (E.connected x).1 = false)
    (hfail : ∀ a b c x, (E.connect a b c x).1 = false)
    (hclock : E.secondsSincePowerOn w ≤ E.secondsSincePowerOn w2) :
    (handleClient E sim808 v m w).1 = m ∧
    (handleClient E sim808 v m w).1.myData.rtcData.mqttSendCount =
      m.myData.rtcData.mqttSendCount ∧
    (handleClient E sim808 v m w).1.myData.rtcData.lastMqttSendSec =
      m.myData.rtcData.lastMqttSendSec ∧
    ((handleClient E sim808 v m w).2.log.filter Event.isConnect).length = 5 ∧
    ((handleClient E sim808 v m w).2.log.filter Event.isPublish).length = 0 ∧
    (selectedInterval (handleClient E sim808 v m w).1
        ≤ elapsedSec E (handleClient E sim808 v m w).1 w2 ∨
      (handleClient E sim808 v m w).1.myData.mqttInitSend = true) ∧
    ((handleClient E sim808 v2 (handleClient E sim808 v m w).1 w2).2.log.filter
      Event.isConnect).length = 5 ∧
    ((handleClient E sim808 v2 (handleClient E sim808 v m w).1 w2).2.log.filter
      Event.isPublish).length = 0 := by
  have h1 := handleClient_dead_round E sim808 v m w (start_of_due E m w hdue hpip) hdown hfail
  have hm : (handleClient E sim808 v m w).1 = m := by
    rw [h1.1]
    cases m
    simp only [MyMqtt.mk.injEq, true_and]
    exact hpip.symm
  have hdue2 : selectedInterval m ≤ elapsedSec E m w2 ∨ m.myData.mqttInitSend = true := by
    rcases hdue with h | h
    · left
      unfold elapsedSec at h ⊢
      have hc : (E.secondsSincePowerOn w : Int) ≤ (E.secondsSincePowerOn w2 : Int) :=
        Int.ofNat_le.mpr hclock
      omega
    · exact Or.inr h
  have h2 := handleClient_dead_round E sim808 v2 m w2 (start_of_due E m w2 hdue2 hpip)
    hdown hfail
  rw [hm]
  refine ⟨rfl, rfl, rfl, ?_, ?_, hdue2, ?_, ?_⟩
  · rw [h1.2]; simp [failedAttempt, Event.isConnect]
  · rw [h1.2]; simp [failedAttempt, Event.isPublish]
  · rw [h2.2]; simp [failedAttempt, Event.isConnect]
  · rw [h2.2]; simp [failedAttempt, Event.isPublish]

/-- C18, at a concrete input: the unreachable broker, moving interval 5; the call at second
5 ends at second 30 with the send count still 7 and the timestamp still 0, and the call
at second 30 tries 5 times again. -/
theorem abandoned_round_changes_nothing_witness :
    (handleClient deadEnv true sampleRendered sampleMqtt 5000).2.w = 30000 ∧
    (handleClient deadEnv true sampleRendered sampleMqtt 5000).1.myData.rtcData.mqttSendCount
      = 7 ∧
    (handleClient deadEnv true sampleRendered sampleMqtt 5000).1.myData.rtcData.lastMqttSendSec
      = 0 ∧
    ((handleClient deadEnv true sampleRendered
        (handleClient deadEnv true sampleRendered sampleMqtt 5000).1 30000).2.log.filter
      Event.isConnect).length = 5 :=
  ⟨by decide,
   (abandoned_round_changes_nothing deadEnv true sampleRendered sampleRendered sampleMqtt
      5000 30000 (Or.inl (by decide)) rfl (fun _ => rfl) (fun _ _ _ _ => rfl)
      (by decide)).2.1,
   (abandoned_round_changes_nothing deadEnv true sampleRendered sampleRendered sampleMqtt
      5000 30000 (Or.inl (by decide)) rfl (fun _ => rfl) (fun _ _ _ _ => rfl)
      (by decide)).2.2.1,
   (abandoned_round_changes_nothing deadEnv true sampleRendered sampleRendered sampleMqtt
      5000 30000 (Or.inl (by decide)) rfl (fun _ => rfl) (fun _ _ _ _ => rfl)
      (by decide)).2.2.2.2.2.2.1⟩

/-! ## C15 -/

theorem subscribeAll_publishing {σ : Type} (E : Env σ) (m : MyMqtt) (b : Bool) (k : Run σ) :
    subscribeAll E { m with publishInProgress := b } k = subscribeAll E m k := rfl

theorem connectLoop_publishing {σ : Type} (E : Env σ) (m : MyMqtt) (b : Bool) (n : Nat)
    (k : Run σ) :
    connectLoop E { m with publishInProgress := b } n k = connectLoop E m n k := by
  induction n generalizing k with
  | zero => rfl
  | succ n ih =>
    simp only [connectLoop, ih, subscribeAll_publishing]

theorem connectStep_publishing {σ : Type} (E : Env σ) (m : MyMqtt) (b : Bool) (k : Run σ) :
    connectStep E { m with publishInProgress := b } k = connectStep E m k := by
  simp only [connectStep, connectLoop_publishing]

theorem afterFailures_log {σ : Type} (E : Env σ) (m : MyMqtt) (j : Nat) (k : Run σ)
    (hchk : ∀ i, i < j → (callConnected E (afterFailures E m i k)).1 = false)
    (hfl : ∀ i, i < j → (attempt E m (afterFailures E m i k)).1 = false) :
    (afterFailures E m j k).log = k.log ++ repeatFailed m.myOptions j := by
  induction j generalizing k with
  | zero => simp [afterFailures, repeatFailed]
  | succ j ih =>
    have c0 : (callConnected E k).1 = false := hchk 0 (Nat.succ_pos j)
    have a0 : (attempt E m k).1 = false := hfl 0 (Nat.succ_pos j)
    have hrec := ih (callDelay E 5000 (attempt E m k).2)
      (fun i hi => hchk (i + 1) (Nat.succ_lt_succ hi))
      (fun i hi => hfl (i + 1) (Nat.succ_lt_succ hi))
    have hlog : (callDelay E 5000 (attempt E m k).2).log = k.log ++ failedAttempt m.myOptions := by
      have a1 : (E.connect m.myOptions.mqttName m.myOptions.mqttUser m.myOptions.mqttPassword
          (E.connected k.w).2).1 = false := a0
      have c1 : (E.connected k.w).1 = false := c0
      simp [callDelay, attempt, callConnect, callConnected, failedAttempt, a1, c1]
    show (afterFailures E m j (callDelay E 5000 (attempt E m k).2)).log = _
    rw [hrec, hlog]
    simp [repeatFailed]

theorem connectLoop_first_success {σ : Type} (E : Env σ) (m : MyMqtt) (j : Nat) :
    ∀ (n : Nat) (k : Run σ), j < n →
    (∀ i, i ≤ j → (callConnected E (afterFailures E m i k)).1 = false) →
    (∀ i, i < j → (attempt E m (afterFailures E m i k)).1 = false) →
    (attempt E m (afterFailures E m j k)).1 = true →
    connectLoop E m n k =
      connectLoop E m (n - j - 1) (subscribeAll E m (attempt E m (afterFailures E m j k)).2) := by
  induction j with
  | zero =>
    intro n k hn hchk _ hok
    obtain ⟨n2, rfl⟩ : ∃ n2, n = n2 + 1 := ⟨n - 1, by omega⟩
    have c0 : (callConnected E k).1 = false := hchk 0 (Nat.le_refl 0)
    have a0 : (callConnect E m.myOptions.mqttName m.myOptions.mqttUser
        m.myOptions.mqttPassword (callConnected E k).2).1 = true := hok
    simp only [connectLoop, c0, a0, if_true, Bool.false_eq_true, if_false]
    rfl
  | succ j ih =>
    intro n k hn hchk hfl hok
    obtain ⟨n2, rfl⟩ : ∃ n2, n = n2 + 1 := ⟨n - 1, by omega⟩
    have c0 : (callConnected E k).1 = false := hchk 0 (Nat.zero_le _)
    have a0 : (callConnect E m.myOptions.mqttName m.myOptions.mqttUser
        m.myOptions.mqttPassword (callConnected E k).2).1 = false := hfl 0 (Nat.succ_pos j)
    have hrec := ih n2 (callDelay E 5000 (attempt E m k).2) (by omega)
      (fun i hi => hchk (i + 1) (Nat.succ_le_succ hi))
      (fun i hi => hfl (i + 1) (Nat.succ_lt_succ hi)) hok
    simp only [connectLoop, c0, a0, if_true, Bool.false_eq_true, if_false]
    have hn3 : n2 + 1 - (j + 1) - 1 = n2 - j - 1 := by omega
    rw [hn3]
    exact hrec

theorem subscribeAll_log {σ : Type} (E : Env σ) (m : MyMqtt) (k : Run σ) :
    ∃ r1 r2 r3 r4 r5 : Bool, (subscribeAll E m k).log = k.log ++
      [Event.subscribe (m.myOptions.mqttName ++ "/" ++ m.myOptions.mqttId ++ topic_deep_sleep) r1,
       Event.subscribe (m.myOptions.mqttName ++ "/" ++ m.myOptions.mqttId ++ topic_power_on) r2,
       Event.subscribe (m.myOptions.mqttName ++ "/" ++ m.myOptions.mqttId ++ topic_gps_enabled) r3,
       Event.subscribe
         (m.myOptions.mqttName ++ "/" ++ m.myOptions.mqttId ++ topic_send_on_move_every) r4,
       Event.subscribe
         (m.myOptions.mqttName ++ "/" ++ m.myOptions.mqttId ++ topic_send_on_non_move_every) r5] := by
  simp only [subscribeAll, mySubscribe, callSubscribe, List.append_assoc, List.cons_append,
    List.nil_append]
  exact ⟨_, _, _, _, _, rfl⟩

theorem foldl_myPublish_ext {σ : Type} (E : Env σ) (m : MyMqtt)
    (l : List (String × String)) (k : Run σ) :
    ∃ ext, (l.foldl (fun r p => (myPublish E m p.1 p.2 r).2) k).log = k.log ++ ext ∧
      ∀ e ∈ ext, e.isConnect = false ∧ e.isSubscribe = false := by
  induction l generalizing k with
  | nil => exact ⟨[], by simp, by intro e he; cases he⟩
  | cons p rest ih =>
    obtain ⟨ext, h1, h2⟩ := ih (myPublish E m p.1 p.2 k).2
    simp only [List.foldl_cons]
    by_cases hv : p.2.length > 0
    · refine ⟨Event.publish (m.myOptions.mqttName ++ "/" ++ m.myOptions.mqttId ++ p.1) p.2 true
        (E.publish (m.myOptions.mqttName ++ "/" ++ m.myOptions.mqttId ++ p.1) p.2 true k.w).1
        :: ext, ?_, ?_⟩
      · rw [h1]; simp [myPublish, hv, callPublish]
      · intro e he
        rcases List.mem_cons.mp he with h | h
        · rw [h]; exact ⟨rfl, rfl⟩
        · exact h2 e h
    · refine ⟨ext, ?_, h2⟩
      rw [h1]; simp [myPublish, hv]

theorem handleClient_round_tail {σ : Type} (E : Env σ) (sim808 : Bool) (v : Rendered)
    (m : MyMqtt) (w : σ)
    (hstart : ((sendDue E m w || m.myData.mqttInitSend) && !m.publishInProgress) = true) :
    ∃ rest, (handleClient E sim808 v m w).2.log =
        (connectStep E m { w := w, log := [] }).log ++ rest ∧
      ∀ e ∈ rest, e.isConnect = false ∧ e.isSubscribe = false := by
  rw [handleClient_round E sim808 v m w hstart]
  have hphase : (connectPhase E m w).2.log = (connectStep E m { w := w, log := [] }).log ++
      [Event.connected (connectPhase E m w).1] := by
    unfold connectPhase
    rw [connectStep_publishing]
    rfl
  split
  · obtain ⟨ext, h1, h2⟩ := foldl_myPublish_ext E { m with publishInProgress := true }
      (roundOffers sim808 v { m with publishInProgress := true }) (connectPhase E m w).2
    refine ⟨Event.connected (connectPhase E m w).1 :: (ext ++ [Event.delay 5000]), ?_, ?_⟩
    · show (publishPhase E sim808 v m w).log ++ [Event.delay 5000] = _
      unfold publishPhase
      rw [publishRound_eq_foldl, h1, hphase]
      simp
    · intro e he
      rcases List.mem_cons.mp he with h | h
      · rw [h]; exact ⟨rfl, rfl⟩
      · rcases List.mem_append.mp h with h3 | h3
        · exact h2 e h3
        · rw [List.mem_singleton.mp h3]; exact ⟨rfl, rfl⟩
  · refine ⟨[Event.connected (connectPhase E m w).1], hphase, ?_⟩
    intro e he
    rw [List.mem_singleton.mp he]; exact ⟨rfl, rfl⟩

theorem attempt_log {σ : Type} (E : Env σ) (m : MyMqtt) (k : Run σ) (r : Bool)
    (hc : (callConnected E k).1 = false) (ha : (attempt E m k).1 = r) :
    (attempt E m k).2.log = k.log ++
      [Event.connected false,
       Event.connect m.myOptions.mqttName m.myOptions.mqttUser m.myOptions.mqttPassword r] := by
  have c1 : (E.connected k.w).1 = false := hc
  have a1 : (E.connect m.myOptions.mqttName m.myOptions.mqttUser m.myOptions.mqttPassword
      (E.connected k.w).2).1 = r := ha
  simp [attempt, callConnect, callConnected, c1, a1]

theorem connectStep_first_success {σ : Type} (E : Env σ) (m : MyMqtt) (w : σ) (j : Nat)
    (hj : j < 5)
    (h0 : (E.connected w).1 = false)
    (hchk : ∀ i, i ≤ j →
      (callConnected E (afterFailures E m i (callConnected E { w := w, log := [] }).2)).1 = false)
    (hfl : ∀ i, i < j →
      (attempt E m (afterFailures E m i (callConnected E { w := w, log := [] }).2)).1 = false)
    (hok : (attempt E m (afterFailures E m j (callConnected E { w := w, log := [] }).2)).1 = true)
    (hafter : j + 1 < 5 → (callConnected E (subscribeAll E m
      (attempt E m (afterFailures E m j (callConnected E { w := w, log := [] }).2)).2)).1 = true) :
    ∃ r1 r2 r3 r4 r5 c : Bool, (connectStep E m { w := w, log := [] }).log =
      [Event.connected false] ++ repeatFailed m.myOptions j ++
      [Event.connected false,
       Event.connect m.myOptions.mqttName m.myOptions.mqttUser m.myOptions.mqttPassword true,
       Event.subscribe (m.myOptions.mqttName ++ "/" ++ m.myOptions.mqttId ++ topic_deep_sleep) r1,
       Event.subscribe (m.myOptions.mqttName ++ "/" ++ m.myOptions.mqttId ++ topic_power_on) r2,
       Event.subscribe (m.myOptions.mqttName ++ "/" ++ m.myOptions.mqttId ++ topic_gps_enabled) r3,
       Event.subscribe
         (m.myOptions.mqttName ++ "/" ++ m.myOptions.mqttId ++ topic_send_on_move_every) r4,
       Event.subscribe
         (m.myOptions.mqttName ++ "/" ++ m.myOptions.mqttId ++ topic_send_on_non_move_every) r5,
       Event.connected c] := by
  have hc0 : (callConnected E { w := w, log := [] }).1 = false := h0
  have hstep : connectStep E m { w := w, log := [] } =
      connectLoop E m 5 (callConnected E { w := w, log := [] }).2 := by
    simp only [connectStep, hc0, Bool.not_false, if_true]
  have hloop := connectLoop_first_success E m j 5 (callConnected E { w := w, log := [] }).2
    hj hchk hfl hok
  have hend : connectLoop E m (5 - j - 1) (subscribeAll E m
      (attempt E m (afterFailures E m j (callConnected E { w := w, log := [] }).2)).2) =
      (callConnected E (subscribeAll E m
        (attempt E m (afterFailures E m j (callConnected E { w := w, log := [] }).2)).2)).2 := by
    by_cases hlast : j + 1 < 5
    · obtain ⟨n2, hn2⟩ : ∃ n2, 5 - j - 1 = n2 + 1 := ⟨5 - j - 2, by omega⟩
      rw [hn2]
      simp only [connectLoop, hafter hlast, if_true]
    · have hz : 5 - j - 1 = 0 := by omega
      rw [hz]
      rfl
  obtain ⟨r1, r2, r3, r4, r5, hsub⟩ := subscribeAll_log E m
    (attempt E m (afterFailures E m j (callConnected E { w := w, log := [] }).2)).2
  have hfail := afterFailures_log E m j (callConnected E { w := w, log := [] }).2
    (fun i hi => hchk i (Nat.le_of_lt hi)) hfl
  have hfirst : (callConnected E ({ w := w, log := [] } : Run σ)).2.log
      = [Event.connected false] := by
    have h1 : (E.connected w).1 = false := h0
    simp [callConnected, h1]
  have hatt := attempt_log E m (afterFailures E m j (callConnected E { w := w, log := [] }).2)
    true (hchk j (Nat.le_refl j)) hok
  refine ⟨r1, r2, r3, r4, r5, (callConnected E (subscribeAll E m
    (attempt E m (afterFailures E m j (callConnected E { w := w, log := [] }).2)).2)).1, ?_⟩
  rw [hstep, hloop, hend]
  show (subscribeAll E m _).log ++ [Event.connected _] = _
  rw [hsub, hatt, hfail, hfirst]
  simp only [List.append_assoc, List.cons_append, List.nil_append]
  rfl

theorem filter_nil_of_forall (p : Event → Bool) (l : List Event)
    (h : ∀ e ∈ l, p e = false) : l.filter p = [] := by
  induction l with
  | nil => rfl
  | cons a rest ih =>
    have ha := h a (List.mem_cons_self _ _)
    simp only [List.filter_cons, ha, Bool.false_eq_true, if_false]
    exact ih (fun e he => h e (List.mem_cons_of_mem _ he))

theorem repeatFailed_connects (o : MyOptions) (j : Nat) :
    ((repeatFailed o j).filter Event.isConnect).length = j ∧
    (repeatFailed o j).filter Event.isSubscribe = [] := by
  induction j with
  | zero => exact ⟨rfl, rfl⟩
  | succ j ih =>
    constructor
    · simp only [repeatFailed, List.filter_append, List.length_append, ih.1]
      simp [failedAttempt, Event.isConnect]
      omega
    · simp only [repeatFailed, List.filter_append, ih.2]
      simp [failedAttempt, Event.isSubscribe]

/-- C15 (the claim fails on the code): the link is down at second 5; the first connect
attempt succeeds, the link is lost while the five subscriptions are made, so the loop test
`connected()` is false again and a second attempt, with five more subscriptions, follows:
the first successful connect is attempt 1, yet 2 connect attempts and 10 subscribe calls
are made. -/
theorem connect_repeated_after_link_loss :
    (lossyEnv.connected lossyWorld).1 = false ∧
    (handleClient lossyEnv true sampleRendered sampleMqtt lossyWorld).2.log.take 16 =
      [Event.connected false,
       Event.connected false, Event.connect "snork" "user" "secret" true,
       Event.subscribe "snork/1/DeepSleep" true, Event.subscribe "snork/1/PowerOn" true,
       Event.subscribe "snork/1/GpsEnabled" true,
       Event.subscribe "snork/1/SendOnMoveEverySec" true,
       Event.subscribe "snork/1/SendOnNonMoveEverySec" true,
       Event.connected false, Event.connect "snork" "user" "secret" true,
       Event.subscribe "snork/1/DeepSleep" true, Event.subscribe "snork/1/PowerOn" true,
       Event.subscribe "snork/1/GpsEnabled" true,
       Event.subscribe "snork/1/SendOnMoveEverySec" true,
       Event.subscribe "snork/1/SendOnNonMoveEverySec" true,
       Event.connected true] ∧
    ((handleClient lossyEnv true sampleRendered sampleMqtt lossyWorld).2.log.filter
      Event.isConnect).length = 2 ∧
    ((handleClient lossyEnv true sampleRendered sampleMqtt lossyWorld).2.log.filter
      Event.isSubscribe).length = 10 := by
  decide

/-- C15, amended: in a round that starts disconnected, if the loop tests find the client
not connected before each of the attempts 1 to `j + 1`, the attempts 1 to `j` fail, attempt
`j + 1` (at most the fifth) succeeds and, unless it was the fifth, the loop test after it
finds the client connected, then the calls of `handleClient` begin with the first test,
`j` failed attempts, and the successful attempt followed at once by the five subscribe
calls in the order `/DeepSleep`, `/PowerOn`, `/GpsEnabled`, `/SendOnMoveEverySec`,
`/SendOnNonMoveEverySec`, and no connect or subscribe call comes after them: exactly
`j + 1` connect attempts and five subscribe calls. In a call that finds the client
connected at the start there is no connect and no subscribe call. -/
theorem connect_until_connected {σ : Type} (E : Env σ) (sim808 : Bool) (v : Rendered)
    (m : MyMqtt) (w w2 : σ) (j : Nat) (hj : j < 5)
    (hdue : selectedInterval m ≤ elapsedSec E m w ∨ m.myData.mqttInitSend = true)
    (hpip : m.publishInProgress = false)
    (h0 : (E.connected w).1 = false)
    (hchk : ∀ i, i ≤ j →
      (callConnected E (afterFailures E m i (callConnected E { w := w, log := [] }).2)).1 = false)
    (hfl : ∀ i, i < j →
      (attempt E m (afterFailures E m i (callConnected E { w := w, log := [] }).2)).1 = false)
    (hok : (attempt E m (afterFailures E m j (callConnected E { w := w, log := [] }).2)).1 = true)
    (hafter : j + 1 < 5 → (callConnected E (subscribeAll E m
      (attempt E m (afterFailures E m j (callConnected E { w := w, log := [] }).2)).2)).1 = true)
    (hconn2 : (E.connected w2).1 = true) :
    (∃ (r1 r2 r3 r4 r5 : Bool) (rest : List Event),
      (handleClient E sim808 v m w).2.log =
        [Event.connected false] ++ repeatFailed m.myOptions j ++
        [Event.connected false,
         Event.connect m.myOptions.mqttName m.myOptions.mqttUser m.myOptions.mqttPassword true,
         Event.subscribe (m.myOptions.mqttName ++ "/" ++ m.myOptions.mqttId ++ topic_deep_sleep) r1,
         Event.subscribe (m.myOptions.mqttName ++ "/" ++ m.myOptions.mqttId ++ topic_power_on) r2,
         Event.subscribe
           (m.myOptions.mqttName ++ "/" ++ m.myOptions.mqttId ++ topic_gps_enabled) r3,
         Event.subscribe
           (m.myOptions.mqttName ++ "/" ++ m.myOptions.mqttId ++ topic_send_on_move_every) r4,
         Event.subscribe
           (m.myOptions.mqttName ++ "/" ++ m.myOptions.mqttId ++ topic_send_on_non_move_every)
           r5] ++ rest ∧
      ∀ e ∈ rest, e.isConnect = false ∧ e.isSubscribe = false) ∧
    ((handleClient E sim808 v m w).2.log.filter Event.isConnect).length = j + 1 ∧
    ((handleClient E sim808 v m w).2.log.filter Event.isSubscribe).length = 5 ∧
    (∀ e ∈ (handleClient E sim808 v m w2).2.log, e.isConnect = false ∧ e.isSubscribe = false) := by
  obtain ⟨r1, r2, r3, r4, r5, c, hstep⟩ :=
    connectStep_first_success E m w j hj h0 hchk hfl hok hafter
  obtain ⟨tail, htail, hno⟩ :=
    handleClient_round_tail E sim808 v m w (start_of_due E m w hdue hpip)
  have hrest : ∀ e ∈ Event.connected c :: tail, e.isConnect = false ∧ e.isSubscribe = false := by
    intro e he
    rcases List.mem_cons.mp he with h | h
    · rw [h]; exact ⟨rfl, rfl⟩
    · exact hno e h
  have hlog : (handleClient E sim808 v m w).2.log =
      [Event.connected false] ++ repeatFailed m.myOptions j ++
      [Event.connected false,
       Event.connect m.myOptions.mqttName m.myOptions.mqttUser m.myOptions.mqttPassword true,
       Event.subscribe (m.myOptions.mqttName ++ "/" ++ m.myOptions.mqttId ++ topic_deep_sleep) r1,
       Event.subscribe (m.myOptions.mqttName ++ "/" ++ m.myOptions.mqttId ++ topic_power_on) r2,
       Event.subscribe
         (m.myOptions.mqttName ++ "/" ++ m.myOptions.mqttId ++ topic_gps_enabled) r3,
       Event.subscribe
         (m.myOptions.mqttName ++ "/" ++ m.myOptions.mqttId ++ topic_send_on_move_every) r4,
       Event.subscribe
         (m.myOptions.mqttName ++ "/" ++ m.myOptions.mqttId ++ topic_send_on_non_move_every)
         r5] ++ (Event.connected c :: tail) := by
    rw [htail, hstep]
    simp only [List.append_assoc, List.cons_append, List.nil_append]
  have hc1 := filter_nil_of_forall Event.isConnect _ (fun e he => (hrest e he).1)
  have hc2 := filter_nil_of_forall Event.isSubscribe _ (fun e he => (hrest e he).2)
  have hrep := repeatFailed_connects m.myOptions j
  refine ⟨⟨r1, r2, r3, r4, r5, Event.connected c :: tail, hlog, hrest⟩, ?_, ?_, ?_⟩
  · rw [hlog]
    simp only [List.filter_append, List.length_append, hc1, hrep.1]
    simp [Event.isConnect]
  · rw [hlog]
    simp only [List.filter_append, List.length_append, hc2, hrep.2]
    simp [Event.isSubscribe]
  · cases hc : ((sendDue E m w2 || m.myData.mqttInitSend) && !m.publishInProgress) with
    | false => rw [handleClient_idle E sim808 v m w2 hc]; intro e he; cases he
    | true =>
      obtain ⟨tail2, htail2, hno2⟩ := handleClient_round_tail E sim808 v m w2 hc
      have hc2 : (callConnected E ({ w := w2, log := [] } : Run σ)).1 = true := hconn2
      have hs2 : (connectStep E m { w := w2, log := [] }).log = [Event.connected true] := by
        have h1 : (E.connected w2).1 = true := hconn2
        simp [connectStep, hc2, callConnected, h1]
      rw [htail2, hs2]
      intro e he
      rcases List.mem_append.mp he with h | h
      · rw [List.mem_singleton.mp h]; exact ⟨rfl, rfl⟩
      · exact hno2 e h

set_option maxRecDepth 4000 in
/-- C15, amended, at a concrete input: link down at second 100, the broker refuses two
attempts and accepts the third, after which the client reports connected: 3 connect
attempts and 5 subscribe calls; with the link up at the start, none at all. -/
theorem connect_until_connected_witness :
    ((handleClient simEnv true sampleRendered sampleMqtt downWorld).2.log.filter
      Event.isConnect).length = 3 ∧
    ((handleClient simEnv true sampleRendered sampleMqtt downWorld).2.log.filter
      Event.isSubscribe).length = 5 ∧
    (∀ e ∈ (handleClient simEnv true sampleRendered sampleMqtt upWorld).2.log,
      e.isConnect = false ∧ e.isSubscribe = false) :=
  ⟨(connect_until_connected simEnv true sampleRendered sampleMqtt downWorld upWorld 2
      (by decide) (Or.inl (by decide)) rfl (by decide) (by decide) (by decide) (by decide)
      (by decide) (by decide)).2.1,
   (connect_until_connected simEnv true sampleRendered sampleMqtt downWorld upWorld 2
      (by decide) (Or.inl (by decide)) rfl (by decide) (by decide) (by decide) (by decide)
      (by decide) (by decide)).2.2.1,
   (connect_until_connected simEnv true sampleRendered sampleMqtt downWorld upWorld 2
      (by decide) (Or.inl (by decide)) rfl (by decide) (by decide) (by decide) (by decide)
      (by decide) (by decide)).2.2.2⟩

/-! ## C20 -/

theorem poll_high_to_low (s : MyVoltage) (c : Nat × ℚ × Bool)
    (h0 : s.myData.isLowPower = false) (hlow : c.2.1 < s.myOptions.powerSaveModeVoltage) :
    (s.poll c).myData.isLowPower = true ∧
    (s.poll c).lowPowerStartSec = (c.1 % 2 ^ 32) / 1000 ∧
    (s.poll c).myOptions = s.myOptions ∧
    (s.poll c).myData.rtcData.lowPowerActiveTimeSec = s.myData.rtcData.lowPowerActiveTimeSec := by
  simp [MyVoltage.poll, MyVoltage.setPowerOn, MyVoltage.readVoltage, h0, hlow]

theorem poll_high_to_high (s : MyVoltage) (c : Nat × ℚ × Bool)
    (h0 : s.myData.isLowPower = false) (hhigh : ¬ c.2.1 < s.myOptions.powerSaveModeVoltage) :
    (s.poll c).myData.isLowPower = false ∧
    (s.poll c).lowPowerStartSec = s.lowPowerStartSec ∧
    (s.poll c).myOptions = s.myOptions ∧
    (s.poll c).myData.rtcData.lowPowerActiveTimeSec = s.myData.rtcData.lowPowerActiveTimeSec := by
  simp [MyVoltage.poll, MyVoltage.setPowerOn, MyVoltage.readVoltage, h0, hhigh]

theorem poll_low_to_low (s : MyVoltage) (c : Nat × ℚ × Bool)
    (h0 : s.myData.isLowPower = true) (hlow : c.2.1 < s.myOptions.powerSaveModeVoltage) :
    (s.poll c).myData.isLowPower = true ∧
    (s.poll c).lowPowerStartSec = s.lowPowerStartSec ∧
    (s.poll c).myOptions = s.myOptions ∧
    (s.poll c).myData.rtcData.lowPowerActiveTimeSec = s.myData.rtcData.lowPowerActiveTimeSec := by
  simp [MyVoltage.poll, MyVoltage.setPowerOn, MyVoltage.readVoltage, h0, hlow]

theorem poll_low_to_high (s : MyVoltage) (c : Nat × ℚ × Bool)
    (h0 : s.myData.isLowPower = true) (hhigh : ¬ c.2.1 < s.myOptions.powerSaveModeVoltage)
    (hms : c.1 < 2 ^ 32) (hle : s.lowPowerStartSec ≤ c.1 / 1000) :
    (s.poll c).myData.isLowPower = false ∧
    (s.poll c).myOptions = s.myOptions ∧
    (s.poll c).myData.rtcData.lowPowerActiveTimeSec =
      s.myData.rtcData.lowPowerActiveTimeSec + (c.1 / 1000 - s.lowPowerStartSec) := by
  have hl := readVoltage_leave (s.setPowerOn c.2.2) c.1 c.2.1 h0 hhigh hms hle
  refine ⟨hl.1, ?_, hl.2.1⟩
  simp [MyVoltage.poll, MyVoltage.setPowerOn, MyVoltage.readVoltage]

theorem foldl_poll_accounting (thr : ℚ) (calls : List (Nat × ℚ × Bool)) :
    ∀ (s : MyVoltage) (cur : Option Nat) (tlast : Nat),
    s.myOptions.powerSaveModeVoltage = thr →
    s.myData.isLowPower = cur.isSome →
    (∀ e, cur = some e → s.lowPowerStartSec = e ∧ e ≤ tlast) →
    (∀ c ∈ calls, c.1 < 2 ^ 32) →
    List.Chain (fun a b => a ≤ b) tlast (calls.map (fun c => c.1 / 1000)) →
    (calls.foldl MyVoltage.poll s).myData.isLowPower = (openRun thr cur calls).isSome ∧
    (∀ e, openRun thr cur calls = some e →
      (calls.foldl MyVoltage.poll s).lowPowerStartSec = e ∧ e ≤ lastTime tlast calls) ∧
    (calls.foldl MyVoltage.poll s).myData.rtcData.lowPowerActiveTimeSec =
      s.myData.rtcData.lowPowerActiveTimeSec + (completedRuns thr cur calls).sum := by
  induction calls with
  | nil =>
    intro s cur tlast _ hmode hcur _ _
    cases cur with
    | none => simp [openRun, completedRuns, lastTime, hmode]
    | some e0 =>
      simp only [openRun, completedRuns, lastTime, List.foldl_nil, List.sum_nil, add_zero]
      refine ⟨hmode, ?_, trivial⟩
      intro e he
      exact hcur e he
  | cons c rest ih =>
    intro s cur tlast hthr hmode hcur hms hchain
    have hc : c.1 < 2 ^ 32 := hms c (List.mem_cons_self _ _)
    have hrestms : ∀ c2 ∈ rest, c2.1 < 2 ^ 32 := fun c2 h2 => hms c2 (List.mem_cons_of_mem _ h2)
    simp only [List.map_cons, List.chain_cons] at hchain
    have hmod : c.1 % 2 ^ 32 = c.1 := Nat.mod_eq_of_lt hc
    simp only [List.foldl_cons]
    cases cur with
    | none =>
      have h0 : s.myData.isLowPower = false := by simpa using hmode
      by_cases hlow : c.2.1 < thr
      · have hp := poll_high_to_low s c h0 (by rw [hthr]; exact hlow)
        have hi := ih (s.poll c) (some (c.1 / 1000)) (c.1 / 1000) (by rw [hp.2.2.1]; exact hthr)
          (by rw [hp.1]; rfl)
          (by intro e he; cases he; exact ⟨by rw [hp.2.1, hmod], Nat.le_refl _⟩)
          hrestms hchain.2
        simp only [openRun, completedRuns, lastTime, hlow, if_true]
        exact ⟨hi.1, hi.2.1, by rw [hi.2.2, hp.2.2.2]⟩
      · have hp := poll_high_to_high s c h0 (by rw [hthr]; exact hlow)
        have hi := ih (s.poll c) none (c.1 / 1000) (by rw [hp.2.2.1]; exact hthr)
          (by rw [hp.1]; rfl) (by intro e he; cases he) hrestms hchain.2
        simp only [openRun, completedRuns, lastTime, hlow, if_false]
        exact ⟨hi.1, hi.2.1, by rw [hi.2.2, hp.2.2.2]⟩
    | some e0 =>
      have h0 : s.myData.isLowPower = true := by simpa using hmode
      have he0 := hcur e0 rfl
      by_cases hlow : c.2.1 < thr
      · have hp := poll_low_to_low s c h0 (by rw [hthr]; exact hlow)
        have hi := ih (s.poll c) (some e0) (c.1 / 1000) (by rw [hp.2.2.1]; exact hthr)
          (by rw [hp.1]; rfl)
          (by intro e he; cases he
              exact ⟨by rw [hp.2.1]; exact he0.1, le_trans he0.2 hchain.1⟩)
          hrestms hchain.2
        simp only [openRun, completedRuns, lastTime, hlow, if_true]
        exact ⟨hi.1, hi.2.1, by rw [hi.2.2, hp.2.2.2]⟩
      · have hle : s.lowPowerStartSec ≤ c.1 / 1000 := by
          rw [he0.1]; exact le_trans he0.2 hchain.1
        have hp := poll_low_to_high s c h0 (by rw [hthr]; exact hlow) hc hle
        have hi := ih (s.poll c) none (c.1 / 1000) (by rw [hp.2.1]; exact hthr)
          (by rw [hp.1]; rfl) (by intro e he; cases he) hrestms hchain.2
        simp only [openRun, completedRuns, lastTime, hlow, if_false, List.sum_cons]
        refine ⟨hi.1, hi.2.1, ?_⟩
        rw [hi.2.2, hp.2.2, he0.1]
        omega

/-- C20: after `begin` at `millis() = ms0` and any sequence of `readVoltage` calls at
non-decreasing seconds (all `millis()` readings below `2 ^ 32`): (i) the mode is low power
exactly when a run is open, and then `lowPowerStartSec` is the time of the call (`begin` or
`readVoltage`) that opened the run and is not after the time of the last call, so for a
next call that is not earlier the `uint32_t` subtraction `currSec - lowPowerStartSec` gives
the true difference; (ii) `lowPowerActiveTimeSec` has grown by the sum, over the completed
runs, of leaving time minus entry time, a run open since `begin` counting from `ms0`; this
holds as an equality, hence also modulo `2 ^ 32`. -/
theorem lowPower_trace_accounting (v0 : MyVoltage) (ms0 : Nat) (volt0 : ℚ)
    (calls : List (Nat × ℚ × Bool))
    (hms0 : ms0 < 2 ^ 32) (hms : ∀ c ∈ calls, c.1 < 2 ^ 32)
    (hmono : List.Chain (fun a b => a ≤ b) (ms0 / 1000) (calls.map (fun c => c.1 / 1000))) :
    ((calls.foldl MyVoltage.poll (v0.begin ms0 volt0)).myData.isLowPower =
      (openRun v0.myOptions.powerSaveModeVoltage
        (runAtBegin v0.myOptions.powerSaveModeVoltage ms0 volt0) calls).isSome) ∧
    (∀ e, openRun v0.myOptions.powerSaveModeVoltage
        (runAtBegin v0.myOptions.powerSaveModeVoltage ms0 volt0) calls = some e →
      (calls.foldl MyVoltage.poll (v0.begin ms0 volt0)).lowPowerStartSec = e ∧
      e ≤ lastTime (ms0 / 1000) calls) ∧
    ((calls.foldl MyVoltage.poll (v0.begin ms0 volt0)).myData.isLowPower = true →
      ∀ msNext, msNext < 2 ^ 32 → lastTime (ms0 / 1000) calls ≤ msNext / 1000 →
      ((msNext % 2 ^ 32) / 1000 + 2 ^ 32 -
          (calls.foldl MyVoltage.poll (v0.begin ms0 volt0)).lowPowerStartSec % 2 ^ 32) % 2 ^ 32 =
        msNext / 1000 - (calls.foldl MyVoltage.poll (v0.begin ms0 volt0)).lowPowerStartSec) ∧
    (calls.foldl MyVoltage.poll (v0.begin ms0 volt0)).myData.rtcData.lowPowerActiveTimeSec =
      v0.myData.rtcData.lowPowerActiveTimeSec +
        (completedRuns v0.myOptions.powerSaveModeVoltage
          (runAtBegin v0.myOptions.powerSaveModeVoltage ms0 volt0) calls).sum ∧
    (calls.foldl MyVoltage.poll (v0.begin ms0 volt0)).myData.rtcData.lowPowerActiveTimeSec
        % 2 ^ 32 =
      (v0.myData.rtcData.lowPowerActiveTimeSec +
        (completedRuns v0.myOptions.powerSaveModeVoltage
          (runAtBegin v0.myOptions.powerSaveModeVoltage ms0 volt0) calls).sum) % 2 ^ 32 := by
  have hmod : ms0 % 2 ^ 32 = ms0 := Nat.mod_eq_of_lt hms0
  have hmode : (v0.begin ms0 volt0).myData.isLowPower =
      (runAtBegin v0.myOptions.powerSaveModeVoltage ms0 volt0).isSome := by
    unfold runAtBegin
    by_cases h : volt0 < v0.myOptions.powerSaveModeVoltage <;> simp [MyVoltage.begin, h]
  have hcur : ∀ e, runAtBegin v0.myOptions.powerSaveModeVoltage ms0 volt0 = some e →
      (v0.begin ms0 volt0).lowPowerStartSec = e ∧ e ≤ ms0 / 1000 := by
    intro e he
    unfold runAtBegin at he
    split at he
    · cases he
      exact ⟨by show (ms0 % 2 ^ 32) / 1000 = ms0 / 1000; rw [hmod], Nat.le_refl _⟩
    · cases he
  have h := foldl_poll_accounting v0.myOptions.powerSaveModeVoltage calls (v0.begin ms0 volt0)
    (runAtBegin v0.myOptions.powerSaveModeVoltage ms0 volt0) (ms0 / 1000) rfl hmode hcur hms hmono
  have hacc : (calls.foldl MyVoltage.poll (v0.begin ms0 volt0)).myData.rtcData.lowPowerActiveTimeSec =
      v0.myData.rtcData.lowPowerActiveTimeSec +
        (completedRuns v0.myOptions.powerSaveModeVoltage
          (runAtBegin v0.myOptions.powerSaveModeVoltage ms0 volt0) calls).sum := h.2.2
  refine ⟨h.1, h.2.1, ?_, hacc, by rw [hacc]⟩
  intro hlow msNext hnext hle
  rw [h.1] at hlow
  obtain ⟨e, he⟩ := Option.isSome_iff_exists.mp hlow
  have hs := h.2.1 e he
  have hsec : msNext / 1000 < 2 ^ 32 := lt_of_le_of_lt (Nat.div_le_self _ _) hnext
  rw [Nat.mod_eq_of_lt hnext]
  exact uint32_sub_of_le (msNext / 1000) _ (by rw [hs.1]; exact le_trans hs.2 hle) hsec

/-- C20, at a concrete input: threshold 3.3, `begin` at second 0 with 3.2 (low power), then
samples 3.1, 3.4, 3.0, 3.5, 3.2 at the seconds 10, 20, 30, 40, 50: the completed runs are
0 to 20 and 30 to 40, the counter grows by 30, and the open run started at second 50. -/
theorem lowPower_trace_accounting_witness :
    completedRuns (33 / 10) (runAtBegin (33 / 10) 0 (32 / 10)) sampleCalls = [20, 10] ∧
    openRun (33 / 10) (runAtBegin (33 / 10) 0 (32 / 10)) sampleCalls = some 50 ∧
    (sampleCalls.foldl MyVoltage.poll
      ((MyVoltage.new sampleOptions sampleData).begin 0 (32 / 10))).myData.rtcData.lowPowerActiveTimeSec
      = 30 ∧
    (sampleCalls.foldl MyVoltage.poll
      ((MyVoltage.new sampleOptions sampleData).begin 0 (32 / 10))).lowPowerStartSec = 50 := by
  have hruns : completedRuns (33 / 10) (runAtBegin (33 / 10) 0 (32 / 10)) sampleCalls
      = [20, 10] := by
    norm_num [completedRuns, runAtBegin, sampleCalls]
  have hopen : openRun (33 / 10) (runAtBegin (33 / 10) 0 (32 / 10)) sampleCalls = some 50 := by
    norm_num [openRun, runAtBegin, sampleCalls]
  have h := lowPower_trace_accounting (MyVoltage.new sampleOptions sampleData) 0 (32 / 10)
    sampleCalls (by norm_num)
    (by
      intro c hc
      simp [sampleCalls] at hc
      rcases hc with h | h | h | h | h <;> subst h <;> norm_num)
    (by simp [sampleCalls])
  have hthr : (MyVoltage.new sampleOptions sampleData).myOptions.powerSaveModeVoltage
      = 33 / 10 := rfl
  rw [hthr] at h
  refine ⟨hruns, hopen, ?_, (h.2.1 50 hopen).1⟩
  rw [h.2.2.2.1, hruns]
  rfl

end SnorkTracker
